import Mathlib

/-!
# Verification of the TiKV coprocessor core against its specification

This file shallowly embeds the parts of the repository needed by the claims:

* the MySQL `Time` codec (`src/coprocessor/codec/mysql/time.rs`): packed-u64
  (de)serialisation, `set_tp`, `round_frac`, and the datetime parser;
* the coprocessor scanner (`src/coprocessor/dag/executor/scanner.rs`);
* the expression evaluator (`src/coprocessor/select/xeval/evaluator.rs`).

`chrono`'s `DateTime<FixedOffset>` is modelled as an absolute instant
(a count of nanoseconds since the Unix epoch) plus a fixed offset in seconds;
its calendar is the proleptic Gregorian calendar, embedded below through the
standard civil-from-days / days-from-civil conversions (the same algorithm
family used by chrono).  Machine integers are modelled by `Nat`/`Int`, with
explicit `% 2^w` reductions where the Rust code can overflow or truncate.

Code of the repository that the claims depend on but that is not among the
provided sources (the `Datum` codec `datum.rs`, the `mysql` helpers
`check_fsp`/`parse_frac`, the `types` constants and the scalar-function
bodies) is modelled from the specification; each such definition carries a
doc comment starting with `Modelled from the spec:`.
-/

namespace Tikv

/-! ## The proleptic Gregorian calendar

`daysFromCivil`/`civilFromDays` convert between a day count relative to
1970-01-01 and a civil triple (year, month, day).  This is Howard Hinnant's
algorithm, the semantics of chrono's calendar: an "era" is a 400-year block
of 146097 days; within an era all quantities are non-negative and the inner
computation (`daysCore`/`civilCore`) is natural-number arithmetic, exactly
as the reference algorithm uses unsigned integers there. -/

/-- Leap year in the proleptic Gregorian calendar. -/
def isLeap (y : Int) : Bool :=
  decide ((y % 4 = 0 ∧ y % 100 ≠ 0) ∨ y % 400 = 0)

/-- Nat version of `isLeap`, used inside era computations. -/
def isLeapN (y : Nat) : Bool :=
  decide ((y % 4 = 0 ∧ y % 100 ≠ 0) ∨ y % 400 = 0)

/-- Number of days of month `m` (1–12) of year `y`. -/
def daysInMonth (y : Int) (m : Nat) : Nat :=
  if m = 2 then (if isLeap y then 29 else 28)
  else if m = 4 ∨ m = 6 ∨ m = 9 ∨ m = 11 then 30
  else 31

/-- Number of days of month `m` of year `y`, year given as a `Nat`. -/
def daysInMonthN (y : Nat) (m : Nat) : Nat :=
  if m = 2 then (if isLeapN y then 29 else 28)
  else if m = 4 ∨ m = 6 ∨ m = 9 ∨ m = 11 then 30
  else 31

/-- Numerator of the year-of-era recovery formula of `civil_from_days`. -/
def yoeNum (doe : Nat) : Nat := doe - doe / 1460 + doe / 36524 - doe / 146096

/-- Year-of-era of a day-of-era, as computed inside `civil_from_days`. -/
def yoeOfDoe (doe : Nat) : Nat := yoeNum doe / 365

/-- Day-of-era at which year-of-era `y` starts. -/
def doeOfYoe (y : Nat) : Nat := 365 * y + y / 4 - y / 100

/-- End (exclusive) of year-of-era `y` inside its era. -/
def doeEndOfYoe (y : Nat) : Nat := if y = 399 then 146097 else doeOfYoe (y + 1)

/-- Day-of-era of the civil date with year-of-era `yoe ∈ [0, 399]`,
month `m` and day `d` (the unsigned core of `days_from_civil`). -/
def daysCore (yoe m d : Nat) : Nat :=
  let mp : Nat := if 2 < m then m - 3 else m + 9
  doeOfYoe yoe + ((153 * mp + 2) / 5 + d - 1)

/-- Day count since 1970-01-01 of the civil date `(y, m, d)`
(Hinnant's `days_from_civil`, the calendar semantics of chrono). -/
def daysFromCivil (y : Int) (m d : Nat) : Int :=
  let y' : Int := y - (if m ≤ 2 then 1 else 0)
  let era : Int := y' / 400
  era * 146097 + (daysCore (y' - era * 400).toNat m d : Int) - 719468

/-- Civil triple `(y, m, d)` of a day-of-era `doe ∈ [0, 146096]`, with the
year given as year-of-era plus the March adjustment (the unsigned core of
`civil_from_days`).  The returned year is in `[0, 400]`. -/
def civilCore (doe : Nat) : Nat × Nat × Nat :=
  let yoe : Nat := yoeOfDoe doe
  let doy : Nat := doe - doeOfYoe yoe
  let mp : Nat := (5 * doy + 2) / 153
  let d : Nat := doy - (153 * mp + 2) / 5 + 1
  let m : Nat := if mp < 10 then mp + 3 else mp - 9
  (yoe + (if m ≤ 2 then 1 else 0), m, d)

/-- Civil date of a day count since 1970-01-01
(Hinnant's `civil_from_days`, the calendar semantics of chrono). -/
def civilFromDays (z : Int) : Int × Nat × Nat :=
  let w : Int := z + 719468
  let era : Int := w / 146097
  let c := civilCore (w - era * 146097).toNat
  ((c.1 : Int) + era * 400, c.2.1, c.2.2)

/-! ### Finite verification of the era-0 calendar round-trip

The facts `daysFromCivil (civilFromDays z) = z` and "`civilFromDays` yields a
valid calendar date" are reduced, through the 400-year periodicity of the
Gregorian calendar, to finitely many checks inside one era, which are
verified by kernel computation: one pass over the 400 years of an era and
one pass over the (at most 366) days of a year. -/

/-- A bounded universal checker: `bchk p fuel lo cnt` decides
`∀ i < cnt, p (lo + i)` by balanced splitting (so that kernel reduction
depth stays logarithmic in `cnt`). -/
def bchk (p : Nat → Bool) : Nat → Nat → Nat → Bool
  | 0, lo, cnt => cnt == 0 || (cnt == 1 && p lo)
  | fuel+1, lo, cnt =>
    if cnt ≤ 1 then cnt == 0 || (cnt == 1 && p lo)
    else bchk p fuel lo (cnt / 2) && bchk p fuel (lo + cnt / 2) (cnt - cnt / 2)

theorem bchk_sound (p : Nat → Bool) :
    ∀ fuel lo cnt, bchk p fuel lo cnt = true → ∀ i, i < cnt → p (lo + i) = true := by
  intro fuel
  induction fuel with
  | zero =>
    intro lo cnt h i hi
    simp only [bchk, Bool.or_eq_true, Bool.and_eq_true, beq_iff_eq] at h
    rcases h with h | ⟨h, hp⟩
    · omega
    · have : i = 0 := by omega
      simpa [this] using hp
  | succ fuel ih =>
    intro lo cnt h i hi
    simp only [bchk] at h
    by_cases hc : cnt ≤ 1
    · simp only [hc, if_true, Bool.or_eq_true, Bool.and_eq_true, beq_iff_eq] at h
      rcases h with h | ⟨h, hp⟩
      · omega
      · have : i = 0 := by omega
        simpa [this] using hp
    · simp only [hc, if_false, Bool.and_eq_true] at h
      by_cases hlt : i < cnt / 2
      · exact ih lo (cnt / 2) h.1 i hlt
      · have h2 := ih (lo + cnt / 2) (cnt - cnt / 2) h.2 (i - cnt / 2) (by omega)
        have : lo + cnt / 2 + (i - cnt / 2) = lo + i := by omega
        rwa [this] at h2

/-- Per-year kernel check: the year-recovery formula is exact at both ends of
every year-of-era, and the year length matches the (March-shifted) leap rule. -/
def chkYear (y : Nat) : Bool :=
  (yoeOfDoe (doeOfYoe y) == y) && (yoeOfDoe (doeEndOfYoe y - 1) == y) &&
  (doeOfYoe y < doeEndOfYoe y) && (doeEndOfYoe y ≤ 146097) &&
  (doeEndOfYoe y - doeOfYoe y == 365 + (if isLeapN (y + 1) then 1 else 0))

/-- Per-day kernel check: month/day extraction from a day-of-year is a valid
calendar date that reconstructs the same day-of-year.  Cases `n < 366` are
common-year days (`n = 365` skipped), cases `366 ≤ n < 732` are leap-year
days `n - 366`. -/
def chkMonth (n : Nat) : Bool :=
  let doy := n % 366
  let lb := n / 366
  if 365 + lb ≤ doy then true
  else
    let mp := (5 * doy + 2) / 153
    let d := doy - (153 * mp + 2) / 5 + 1
    let m := if mp < 10 then mp + 3 else mp - 9
    (1 ≤ m) && (m ≤ 12) && (1 ≤ d) && (mp ≤ 11) &&
    (d ≤ (if m == 2 then 28 + lb else daysInMonthN 1 m)) &&
    ((153 * mp + 2) / 5 + d - 1 == doy)

set_option maxHeartbeats 4000000 in
theorem chkYear_all : bchk chkYear 9 0 400 = true := by decide

set_option maxHeartbeats 4000000 in
theorem chkMonth_all : bchk chkMonth 10 0 732 = true := by decide

theorem yoeNum_mono : ∀ {a b : Nat}, a ≤ b → yoeNum a ≤ yoeNum b := by
  have step : ∀ a, yoeNum a ≤ yoeNum (a + 1) := by
    intro a; unfold yoeNum; omega
  intro a b h
  induction b with
  | zero =>
    have ha : a = 0 := by omega
    subst ha; exact Nat.le_refl _
  | succ b ih =>
    rcases Nat.lt_or_ge a (b + 1) with h' | h'
    · exact le_trans (ih (by omega)) (step b)
    · have ha : a = b + 1 := by omega
      subst ha; exact Nat.le_refl _

theorem yoeOfDoe_mono {a b : Nat} (h : a ≤ b) : yoeOfDoe a ≤ yoeOfDoe b :=
  Nat.div_le_div_right (yoeNum_mono h)

theorem chkYear_spec {y : Nat} (hy : y < 400) :
    yoeOfDoe (doeOfYoe y) = y ∧ yoeOfDoe (doeEndOfYoe y - 1) = y ∧
    doeOfYoe y < doeEndOfYoe y ∧ doeEndOfYoe y ≤ 146097 ∧
    doeEndOfYoe y - doeOfYoe y = 365 + (if isLeapN (y + 1) then 1 else 0) := by
  have h := bchk_sound chkYear 9 0 400 chkYear_all y hy
  simp only [Nat.zero_add, chkYear, Bool.and_eq_true, beq_iff_eq,
    decide_eq_true_eq] at h
  exact ⟨h.1.1.1.1, h.1.1.1.2, h.1.1.2, h.1.2, h.2⟩

/-- Every day-of-era inside an era falls in the year-of-era that the
recovery formula computes. -/
theorem year_assembly {doe : Nat} (h : doe < 146097) :
    yoeOfDoe doe < 400 ∧ doeOfYoe (yoeOfDoe doe) ≤ doe ∧
    doe < doeEndOfYoe (yoeOfDoe doe) := by
  obtain ⟨e1, e2, e3, e4, e5⟩ := chkYear_spec (y := 399) (by omega)
  have hend399 : doeEndOfYoe 399 = 146097 := by simp [doeEndOfYoe]
  have hupper : yoeOfDoe doe ≤ 399 := by
    have h1 : yoeOfDoe doe ≤ yoeOfDoe (doeEndOfYoe 399 - 1) :=
      yoeOfDoe_mono (by omega)
    omega
  have hy400 : yoeOfDoe doe < 400 := by omega
  refine ⟨hy400, ?_, ?_⟩
  · by_contra hlt
    push_neg at hlt
    have hyo1 : 1 ≤ yoeOfDoe doe := by
      rcases Nat.eq_zero_or_pos (yoeOfDoe doe) with h0 | h1
      · rw [h0] at hlt; simp [doeOfYoe] at hlt
      · exact h1
    obtain ⟨p1, p2, p3, p4, p5⟩ := chkYear_spec (y := yoeOfDoe doe - 1) (by omega)
    have hendprev : doeEndOfYoe (yoeOfDoe doe - 1) = doeOfYoe (yoeOfDoe doe) := by
      have hne : yoeOfDoe doe - 1 ≠ 399 := by omega
      simp only [doeEndOfYoe, hne, if_false]
      congr 1
      omega
    have hle : doe ≤ doeEndOfYoe (yoeOfDoe doe - 1) - 1 := by omega
    have := yoeOfDoe_mono hle
    omega
  · by_contra hge
    push_neg at hge
    rcases Nat.lt_or_ge (yoeOfDoe doe) 399 with hlt399 | h399'
    · obtain ⟨q1, q2, q3, q4, q5⟩ := chkYear_spec (y := yoeOfDoe doe + 1) (by omega)
      have hendcur : doeEndOfYoe (yoeOfDoe doe) = doeOfYoe (yoeOfDoe doe + 1) := by
        have hne : yoeOfDoe doe ≠ 399 := by omega
        simp [doeEndOfYoe, hne]
      have hle : doeOfYoe (yoeOfDoe doe + 1) ≤ doe := by omega
      have := yoeOfDoe_mono hle
      omega
    · have h399'' : yoeOfDoe doe = 399 := by omega
      rw [h399''] at hge
      omega

theorem chkMonth_spec {doy lb mp d m : Nat} (hlb : lb ≤ 1) (hdoy : doy < 365 + lb)
    (hmp : mp = (5 * doy + 2) / 153)
    (hd : d = doy - (153 * mp + 2) / 5 + 1)
    (hm : m = if mp < 10 then mp + 3 else mp - 9) :
    1 ≤ m ∧ m ≤ 12 ∧ 1 ≤ d ∧ mp ≤ 11 ∧
    d ≤ (if m = 2 then 28 + lb else daysInMonthN 1 m) ∧
    (153 * mp + 2) / 5 + d - 1 = doy := by
  subst hmp; subst hd; subst hm
  have hn : lb * 366 + doy < 732 := by omega
  have h := bchk_sound chkMonth 10 0 732 chkMonth_all (lb * 366 + doy) hn
  rw [Nat.zero_add] at h
  have hmod : (lb * 366 + doy) % 366 = doy := by omega
  have hdiv : (lb * 366 + doy) / 366 = lb := by omega
  simp only [chkMonth, hmod, hdiv] at h
  have hguard : ¬ (365 + lb ≤ doy) := by omega
  rw [if_neg hguard] at h
  simp only [Bool.and_eq_true, beq_iff_eq, decide_eq_true_eq] at h
  exact ⟨h.1.1.1.1.1, h.1.1.1.1.2, h.1.1.1.2, h.1.1.2, h.1.2, h.2⟩

theorem daysInMonthN_ne2 {y y' m : Nat} (hm : m ≠ 2) :
    daysInMonthN y m = daysInMonthN y' m := by
  simp [daysInMonthN, hm]

/-- The era-0 calendar round-trip: `civilCore` produces a valid calendar
date whose `daysCore` reconstruction is the original day-of-era. -/
theorem civilCore_roundtrip {doe : Nat} (h : doe < 146097) :
    1 ≤ (civilCore doe).2.1 ∧ (civilCore doe).2.1 ≤ 12 ∧
    1 ≤ (civilCore doe).2.2 ∧
    (civilCore doe).2.2 ≤ daysInMonthN (civilCore doe).1 (civilCore doe).2.1 ∧
    (if (civilCore doe).2.1 ≤ 2 then 1 else 0) ≤ (civilCore doe).1 ∧
    (civilCore doe).1 - (if (civilCore doe).2.1 ≤ 2 then 1 else 0) ≤ 399 ∧
    daysCore ((civilCore doe).1 - (if (civilCore doe).2.1 ≤ 2 then 1 else 0))
      (civilCore doe).2.1 (civilCore doe).2.2 = doe := by
  obtain ⟨hy400, hylo, hyhi⟩ := year_assembly h
  obtain ⟨hs1, hs2, hs3, hs4, hs5⟩ := chkYear_spec hy400
  have hlb1 : (if isLeapN (yoeOfDoe doe + 1) then 1 else 0) ≤ 1 := by
    split <;> omega
  have hdoylt : doe - doeOfYoe (yoeOfDoe doe) <
      365 + (if isLeapN (yoeOfDoe doe + 1) then 1 else 0) := by omega
  obtain ⟨hm1, hm2, hd1, hmp11, hdim, hrec⟩ :=
    chkMonth_spec hlb1 hdoylt rfl rfl rfl
  have hcc : civilCore doe =
      (yoeOfDoe doe +
        (if (if (5 * (doe - doeOfYoe (yoeOfDoe doe)) + 2) / 153 < 10 then
              (5 * (doe - doeOfYoe (yoeOfDoe doe)) + 2) / 153 + 3
            else (5 * (doe - doeOfYoe (yoeOfDoe doe)) + 2) / 153 - 9) ≤ 2
          then 1 else 0),
       (if (5 * (doe - doeOfYoe (yoeOfDoe doe)) + 2) / 153 < 10 then
          (5 * (doe - doeOfYoe (yoeOfDoe doe)) + 2) / 153 + 3
        else (5 * (doe - doeOfYoe (yoeOfDoe doe)) + 2) / 153 - 9),
       (doe - doeOfYoe (yoeOfDoe doe)) -
         (153 * ((5 * (doe - doeOfYoe (yoeOfDoe doe)) + 2) / 153) + 2) / 5 + 1) := rfl
  rw [hcc]
  dsimp only
  generalize hq : yoeOfDoe doe = yo at *
  generalize hdoyq : doe - doeOfYoe yo = doy at *
  generalize hmpq : (5 * doy + 2) / 153 = mp at *
  generalize hdq : doy - (153 * mp + 2) / 5 + 1 = d at *
  generalize hmq : (if mp < 10 then mp + 3 else mp - 9) = m at *
  have hmp_inv : (if 2 < m then m - 3 else m + 9) = mp := by
    rcases Nat.lt_or_ge mp 10 with h10 | h10
    · rw [if_pos h10] at hmq
      rw [← hmq, if_pos (by omega)]
      omega
    · rw [if_neg (by omega)] at hmq
      rw [← hmq, if_neg (by omega)]
      omega
  refine ⟨hm1, hm2, hd1, ?_, by split <;> omega, by omega, ?_⟩
  · by_cases hm2' : m = 2
    · rw [hm2']
      rw [if_pos (by omega : (2:Nat) ≤ 2)]
      have : daysInMonthN (yo + 1) 2 = 28 + (if isLeapN (yo + 1) then 1 else 0) := by
        by_cases hL : isLeapN (yo + 1) <;> simp [daysInMonthN, hL]
      rw [this]
      rw [hm2'] at hdim
      simpa using hdim
    · have hdm : daysInMonthN (yo + (if m ≤ 2 then 1 else 0)) m = daysInMonthN 1 m :=
        daysInMonthN_ne2 hm2'
      rw [hdm]
      rw [if_neg hm2'] at hdim
      exact hdim
  · have hyo : yo + (if m ≤ 2 then 1 else 0) - (if m ≤ 2 then 1 else 0) = yo := by
      omega
    rw [hyo]
    simp only [daysCore, hmp_inv]
    omega

theorem isLeap_shift (a : Nat) (k : Int) : isLeap ((a : Int) + k * 400) = isLeapN a := by
  simp only [isLeap, isLeapN, decide_eq_decide]
  omega

theorem daysInMonth_shift (a : Nat) (k : Int) (m : Nat) :
    daysInMonth ((a : Int) + k * 400) m = daysInMonthN a m := by
  by_cases hm : m = 2
  · simp [daysInMonth, daysInMonthN, hm, isLeap_shift]
  · simp [daysInMonth, daysInMonthN, hm]

/-- `civilFromDays z` unfolded through the era decomposition. -/
theorem civilFromDays_eq (z : Int) :
    civilFromDays z =
      (((civilCore ((z + 719468) % 146097).toNat).1 : Int) +
        ((z + 719468) / 146097) * 400,
       (civilCore ((z + 719468) % 146097).toNat).2.1,
       (civilCore ((z + 719468) % 146097).toNat).2.2) := by
  have hmod : z + 719468 - (z + 719468) / 146097 * 146097 = (z + 719468) % 146097 := by
    omega
  simp only [civilFromDays]
  rw [hmod]

/-- The calendar round-trip, over all day counts: converting a day count to
a civil date and back is the identity. -/
theorem daysFromCivil_civilFromDays (z : Int) :
    daysFromCivil (civilFromDays z).1 (civilFromDays z).2.1 (civilFromDays z).2.2 = z := by
  rw [civilFromDays_eq]
  set era : Int := (z + 719468) / 146097 with hera
  set r : Int := (z + 719468) % 146097 with hr
  have hr0 : 0 ≤ r := Int.emod_nonneg _ (by norm_num)
  have hrlt : r < 146097 := Int.emod_lt_of_pos _ (by norm_num)
  set n : Nat := r.toNat with hn
  have hcast : (n : Int) = r := Int.toNat_of_nonneg hr0
  have hnlt : n < 146097 := by omega
  obtain ⟨c1, c2, c3, c4, c5, c6, c7⟩ := civilCore_roundtrip hnlt
  set c := civilCore n with hc
  set indN : Nat := if c.2.1 ≤ 2 then 1 else 0 with hind
  simp only [daysFromCivil]
  have hif : (if c.2.1 ≤ 2 then (1 : Int) else 0) = (indN : Int) := by
    rw [hind]; split <;> simp
  rw [hif]
  have hy' : (c.1 : Int) + era * 400 - (indN : Int) = ((c.1 - indN : Nat) : Int) + era * 400 := by
    omega
  rw [hy']
  have hdiv : (((c.1 - indN : Nat) : Int) + era * 400) / 400 = era := by
    omega
  rw [hdiv]
  have hsub : ((c.1 - indN : Nat) : Int) + era * 400 - era * 400 = ((c.1 - indN : Nat) : Int) := by
    ring
  rw [hsub, Int.toNat_natCast, c7, hcast]
  omega

/-- The civil date produced by `civilFromDays` is always a valid calendar date. -/
theorem civilFromDays_valid (z : Int) :
    1 ≤ (civilFromDays z).2.1 ∧ (civilFromDays z).2.1 ≤ 12 ∧
    1 ≤ (civilFromDays z).2.2 ∧
    (civilFromDays z).2.2 ≤ daysInMonth (civilFromDays z).1 (civilFromDays z).2.1 := by
  rw [civilFromDays_eq]
  have hr0 : 0 ≤ (z + 719468) % 146097 := Int.emod_nonneg _ (by norm_num)
  have hrlt : (z + 719468) % 146097 < 146097 := Int.emod_lt_of_pos _ (by norm_num)
  have hnlt : ((z + 719468) % 146097).toNat < 146097 := by omega
  obtain ⟨c1, c2, c3, c4, c5, c6, c7⟩ := civilCore_roundtrip hnlt
  refine ⟨c1, c2, c3, ?_⟩
  rw [daysInMonth_shift]
  exact c4

/-! ## The chrono time model

`DateTime<FixedOffset>` is an absolute instant together with a fixed offset;
chrono's `PartialEq`/`Ord` compare the instant only.  We count the instant in
integer nanoseconds since the Unix epoch.  (chrono limits years to
`±262143`; none of the values handled here goes anywhere near that bound,
so range overflow of the instant is not modelled.) -/

/-- chrono `DateTime<FixedOffset>`: instant in nanoseconds since the Unix
epoch, plus the offset east of UTC in seconds. -/
structure DateTimeTz where
  inst : Int
  off : Int
  deriving DecidableEq

/-- The "naive local" view of a `DateTime<FixedOffset>`, as a nanosecond
count: local wall-clock time is the instant shifted by the offset. -/
def DateTimeTz.localNanos (t : DateTimeTz) : Int := t.inst + t.off * 1000000000

/-- chrono `Timelike::nanosecond()`: sub-second nanoseconds (the same in the
local and the UTC view, offsets being whole seconds). -/
def DateTimeTz.nanosecond (t : DateTimeTz) : Nat := (t.inst % 1000000000).toNat

/-- chrono `timestamp()`: whole seconds since the epoch (floor). -/
def DateTimeTz.timestamp (t : DateTimeTz) : Int := t.inst / 1000000000

/-- Calendar components of a datetime. -/
structure Dtc where
  year : Int
  month : Nat
  day : Nat
  hour : Nat
  minute : Nat
  second : Nat
  nano : Nat
  deriving DecidableEq

/-- Components of a naive datetime given as nanoseconds since the epoch
(chrono's `Datelike`/`Timelike` accessors). -/
def componentsOfNanos (x : Int) : Dtc :=
  let days : Int := x / 86400000000000
  let rem : Nat := (x % 86400000000000).toNat
  let c := civilFromDays days
  let secs : Nat := rem / 1000000000
  { year := c.1, month := c.2.1, day := c.2.2,
    hour := secs / 3600, minute := secs % 3600 / 60, second := secs % 60,
    nano := rem % 1000000000 }

/-- The error type of the embedded fallible operations (`Result<_>` in the
source; `box_err!` errors carry only a message). -/
inductive Err where
  | box (msg : String)
  | eval (msg : String)
  | expr (msg : String)
  deriving DecidableEq

instance {e a : Type} [DecidableEq e] [DecidableEq a] : DecidableEq (Except e a) :=
  fun x y =>
    match x, y with
    | .ok v, .ok w => decidable_of_iff (v = w) (by simp)
    | .error v, .error w => decidable_of_iff (v = w) (by simp)
    | .ok _, .error _ => isFalse (by simp)
    | .error _, .ok _ => isFalse (by simp)

/-- `ymd_hms_nanos` (time.rs): build a datetime in the given timezone from
local calendar components, failing on an invalid calendar date or
time-of-day (`ymd_opt`/`and_hms_opt`), then add `nanos` nanoseconds to the
instant (`checked_add_signed`). -/
def ymd_hms_nanos (off : Int) (y : Int) (m d h mi s : Nat) (nanos : Nat) :
    Except Err DateTimeTz :=
  if 1 ≤ m ∧ m ≤ 12 ∧ 1 ≤ d ∧ d ≤ daysInMonth y m ∧ h < 24 ∧ mi < 60 ∧ s < 60 then
    .ok ⟨(daysFromCivil y m d * 86400 + h * 3600 + mi * 60 + s - off) * 1000000000
           + nanos, off⟩
  else .error (.box "not a valid datetime")

/-- Modelled from the spec: the `types` constants of the MySQL protocol
(module `coprocessor/codec/mysql/types.rs`, not among the sources);
`TIMESTAMP`, `DATE`, `DATETIME` are the standard MySQL type codes. -/
def typeTIMESTAMP : Nat := 7

/-- MySQL type code of DATE; see `typeTIMESTAMP`. -/
def typeDATE : Nat := 10

/-- MySQL type code of DATETIME; see `typeTIMESTAMP`. -/
def typeDATETIME : Nat := 12

/-- Modelled from the spec: `mysql::check_fsp` (not among the sources); the
spec constrains `fsp` to `0..=6`, with `-1` (`UN_SPECIFIED_FSP`) mapped to
the default fsp 0. -/
def check_fsp (fsp : Int) : Except Err Nat :=
  if fsp = -1 then .ok 0
  else if 0 ≤ fsp ∧ fsp ≤ 6 then .ok fsp.toNat
  else .error (.box "invalid fsp")

/-- In Go, `time.Date(0, 0, 0, 0, 0, 0, 0, time.UTC)` is adjusted to
`-0001-11-30 00:00:00 UTC`, whose timestamp is `-62169984000`; the zero
sentinel is stored at that instant (constant `ZERO_TIMESTAMP` in time.rs). -/
def ZERO_TIMESTAMP : Int := -62169984000

/-- `zero_time` (time.rs): `tz.timestamp(ZERO_TIMESTAMP, 0)`. -/
def zero_time (tz : Int) : DateTimeTz := ⟨ZERO_TIMESTAMP * 1000000000, tz⟩

/-- The `Time` struct of time.rs. -/
structure Time where
  time : DateTimeTz
  tp : Nat
  fsp : Nat
  deriving DecidableEq

/-- `Time::new`. -/
def Time.new (t : DateTimeTz) (tp : Nat) (fsp : Int) : Except Err Time :=
  match check_fsp fsp with
  | .error e => .error e
  | .ok f => .ok ⟨t, tp, f⟩

/-- `zero_datetime` (time.rs): the zero sentinel as a DATETIME with the
default fsp. -/
def zero_datetime (tz : Int) : Time := ⟨zero_time tz, typeDATETIME, 0⟩

/-- `Time::is_zero`: compares the whole-second timestamp with the sentinel. -/
def Time.is_zero (t : Time) : Bool := t.time.timestamp == ZERO_TIMESTAMP

/-- Rust `Time == Time`: the `PartialEq` impl compares only `self.time`,
and chrono equates `DateTime`s by instant. -/
def Time.rustEq (a b : Time) : Bool := a.time.inst == b.time.inst

/-- chrono `.date().and_hms(0, 0, 0)`: midnight (in the same offset) of the
same local calendar day. -/
def dateAndHms0 (t : DateTimeTz) : DateTimeTz :=
  let c := civilFromDays (t.localNanos / 86400000000000)
  ⟨(daysFromCivil c.1 c.2.1 c.2.2 * 86400 - t.off) * 1000000000, t.off⟩

/-- `Time::set_tp` (time.rs): truncate the time of day when newly becoming
a DATE; reject a change to TIMESTAMP; otherwise just replace the tag. -/
def Time.set_tp (t : Time) (tp : Nat) : Except Err Time :=
  let t1 := if t.tp ≠ tp ∧ tp = typeDATE then
    { t with time := dateAndHms0 t.time } else t
  if t.tp ≠ tp ∧ tp = typeTIMESTAMP then
    .error (.box "can not convert datetime/date to timestamp")
  else .ok { t1 with tp := tp }

/-- The Rust `as u64` cast of a signed integer (two's complement). -/
def u64OfInt (i : Int) : Nat := (i % (18446744073709551616 : Int)).toNat

/-- The packed-u64 layout built from calendar components:
`(((year*13 + month) << 5 | day) << 17 | hour << 12 | minute << 6 | second)
<< 24 | microsecond`.  Day, hms and microseconds always fit their fields
(day ≤ 31 < 2^5, hms < 2^17, micro < 10^6 < 2^24), so each `<< k | v` is
`* 2^k + v`; the u64 multiplications and shifts wrap, which is the single
final `% 2^64` (pushing the intermediate reductions outward preserves the
value, as the operations are `+` and `*`). -/
def packOfComponents (c : Dtc) : Nat :=
  ((((u64OfInt c.year * 13 + c.month) * 32 + c.day) * 131072
      + (c.hour * 4096 + c.minute * 64 + c.second)) * 16777216
    + c.nano / 1000) % 18446744073709551616

/-- `Time::to_packed_u64` (time.rs): zero packs to 0; a TIMESTAMP packs its
naive UTC components, other types pack the local components. -/
def Time.to_packed_u64 (t : Time) : Nat :=
  if t.is_zero then 0
  else packOfComponents (componentsOfNanos
    (if t.tp = typeTIMESTAMP then t.time.inst else t.time.localNanos))

/-- `Time::from_packed_u64` (time.rs).  Masks `x & (2^k - 1)` are written
`x % 2^k`; the `as u32` cast of `micro * 1000` (which can exceed `u32`) is
the explicit `% 2^32`. -/
def Time.from_packed_u64 (u : Nat) (tp : Nat) (fsp : Int) (tz : Int) :
    Except Err Time :=
  let u := u % 18446744073709551616
  if u = 0 then Time.new (zero_time tz) tp fsp
  else
    match check_fsp fsp with
    | .error e => .error e
    | .ok f =>
      let ymdhms := u >>> 24
      let ymd := ymdhms >>> 17
      let day := ymd % 32
      let ym := ymd >>> 5
      let month := ym % 13
      let year : Int := (ym / 13 : Nat)
      let hms := ymdhms % 131072
      let second := hms % 64
      let minute := (hms >>> 6) % 64
      let hour := hms >>> 12
      let nanosec := (u % 16777216 * 1000) % 4294967296
      let res := if tp = typeTIMESTAMP then
          match ymd_hms_nanos 0 year month day hour minute second nanosec with
          | .error e => .error e
          | .ok t0 => .ok (⟨t0.inst, tz⟩ : DateTimeTz)
        else ymd_hms_nanos tz year month day hour minute second nanosec
      match res with
      | .error e => .error e
      | .ok t => Time.new t tp (f : Int)

/-- Modelled from the spec: exact integer form of
`(nanos as f64 / base as f64).round()` — round half away from zero, which
for the non-negative values here is `⌊n/base + 1/2⌋`.  (The `f64`
computation is exact on this domain: ties `m + 1/2` are dyadic and hit
exactly, and elsewhere the quotient is farther from a tie than the
rounding error of one division.) -/
def roundF64Div (n base : Nat) : Nat := (2 * n + base) / (2 * base)

/-- `Time::round_frac` (time.rs): no-op on DATE and on the zero sentinel and
when the fsp does not change; otherwise round the nanosecond field and add
the difference `nanos - expect_nanos` to the instant. -/
def Time.round_frac (t : Time) (fsp : Int) : Except Err Time :=
  if t.tp = typeDATE ∨ t.is_zero then .ok t
  else
    match check_fsp fsp with
    | .error e => .error e
    | .ok f =>
      if f = t.fsp then .ok t
      else
        let nanos : Nat := t.time.nanosecond
        let base : Nat := 10 ^ (9 - f)
        let expect_nanos : Nat := roundF64Div nanos base * base
        let diff : Int := (nanos : Int) - (expect_nanos : Int)
        .ok { t with time := ⟨t.time.inst + diff, t.time.off⟩, fsp := f }

/-! ## Claim C1: the packed-u64 round-trip -/

/-- Validity, bounds and reassembly of `componentsOfNanos`. -/
theorem componentsOfNanos_spec (x : Int) :
    1 ≤ (componentsOfNanos x).month ∧ (componentsOfNanos x).month ≤ 12 ∧
    1 ≤ (componentsOfNanos x).day ∧
    (componentsOfNanos x).day ≤
      daysInMonth (componentsOfNanos x).year (componentsOfNanos x).month ∧
    (componentsOfNanos x).hour < 24 ∧ (componentsOfNanos x).minute < 60 ∧
    (componentsOfNanos x).second < 60 ∧ (componentsOfNanos x).nano < 1000000000 ∧
    (daysFromCivil (componentsOfNanos x).year (componentsOfNanos x).month
        (componentsOfNanos x).day * 86400 +
      (componentsOfNanos x).hour * 3600 + (componentsOfNanos x).minute * 60 +
      (componentsOfNanos x).second) * 1000000000 + (componentsOfNanos x).nano = x := by
  obtain ⟨v1, v2, v3, v4⟩ := civilFromDays_valid (x / 86400000000000)
  have hrt := daysFromCivil_civilFromDays (x / 86400000000000)
  simp only [componentsOfNanos]
  have hr0 : 0 ≤ x % 86400000000000 := Int.emod_nonneg _ (by norm_num)
  have hrlt : x % 86400000000000 < 86400000000000 := Int.emod_lt_of_pos _ (by norm_num)
  refine ⟨v1, v2, v3, v4, by omega, by omega, by omega, by omega, ?_⟩
  rw [hrt]
  omega

theorem u64OfInt_of_small {i : Int} (h0 : 0 ≤ i) (h1 : i < 18446744073709551616) :
    (u64OfInt i : Int) = i := by
  simp only [u64OfInt]
  omega

/-- A legal instant for packing: the naive components that `to_packed_u64`
reads (UTC for TIMESTAMP, local otherwise) have a year in `0..=9999` and
microsecond resolution (`fsp ≤ 6` time values never carry sub-microsecond
nanoseconds). -/
def legalInstant (tp : Nat) (dt : DateTimeTz) : Prop :=
  0 ≤ (componentsOfNanos (if tp = typeTIMESTAMP then dt.inst else dt.localNanos)).year ∧
  (componentsOfNanos (if tp = typeTIMESTAMP then dt.inst else dt.localNanos)).year ≤ 9999 ∧
  (if tp = typeTIMESTAMP then dt.inst else dt.localNanos) % 1000 = 0

/-- A legal `Time`: one of the three temporal types, `fsp ∈ 0..=6`, an
offset inside `(-86400, 86400)`, and either the exact zero sentinel or a
legal instant. -/
def legalTime (t : Time) : Prop :=
  (t.tp = typeDATE ∨ t.tp = typeDATETIME ∨ t.tp = typeTIMESTAMP) ∧
  t.fsp ≤ 6 ∧ -86400 < t.time.off ∧ t.time.off < 86400 ∧
  (if t.is_zero then t.time.inst = ZERO_TIMESTAMP * 1000000000
   else legalInstant t.tp t.time)

instance (t : Time) : Decidable (legalTime t) := by
  unfold legalTime legalInstant
  infer_instance

/-- C1.  For every legal Time `t`,
`Time::from_packed_u64(t.to_packed_u64(), t.tp, t.fsp, t.tz)` succeeds and
returns `t` itself; moreover the packed value is built from `t`'s naive UTC
components when `t.tp` is TIMESTAMP and from its local components under its
timezone otherwise. -/
theorem c1_packed_roundtrip (t : Time) (h : legalTime t) :
    Time.from_packed_u64 t.to_packed_u64 t.tp (t.fsp : Int) t.time.off = .ok t ∧
    t.to_packed_u64 = (if t.is_zero then 0 else
      packOfComponents (componentsOfNanos
        (if t.tp = typeTIMESTAMP then t.time.inst else t.time.localNanos))) := by
  obtain ⟨htp, hfsp, hoff1, hoff2, hinst⟩ := h
  have hfspok : check_fsp (t.fsp : Int) = .ok t.fsp := by
    have h1 : ¬((t.fsp : Int) = -1) := by omega
    have h2 : 0 ≤ (t.fsp : Int) ∧ (t.fsp : Int) ≤ 6 := by omega
    simp [check_fsp, h1, h2]
  constructor
  case right => simp [Time.to_packed_u64]
  by_cases hz : t.is_zero
  · -- zero sentinel: packs to 0, decodes to the sentinel at the same instant
    rw [if_pos hz] at hinst
    have hpack : t.to_packed_u64 = 0 := by simp [Time.to_packed_u64, hz]
    rw [hpack]
    have heq : zero_time t.time.off = t.time := by
      simp only [zero_time, ← hinst]
    simp [Time.from_packed_u64, Time.new, hfspok, heq]
  · -- non-zero: decode the packed components and rebuild the same instant
    rw [if_neg hz] at hinst
    obtain ⟨hy0, hy9999, hmod1000⟩ := hinst
    set base : Int := if t.tp = typeTIMESTAMP then t.time.inst else t.time.localNanos
      with hbase
    obtain ⟨m1, m2, d1, d2, hh, hmi, hs, hna, hre⟩ := componentsOfNanos_spec base
    set c := componentsOfNanos base with hc
    have hyN : (u64OfInt c.year : Int) = c.year := u64OfInt_of_small hy0 (by omega)
    have hyN9999 : u64OfInt c.year ≤ 9999 := by omega
    have hd31 : c.day ≤ 31 := by
      have : daysInMonth c.year c.month ≤ 31 := by
        unfold daysInMonth
        split
        · split <;> omega
        · split <;> omega
      omega
    have hnano1000 : c.nano % 1000 = 0 := by
      have h1 : base % 86400000000000 % 1000 = 0 := by omega
      have : c.nano = ((base % 86400000000000).toNat) % 1000000000 := by
        rw [hc]; simp [componentsOfNanos]
      have hr0 : 0 ≤ base % 86400000000000 := Int.emod_nonneg _ (by norm_num)
      omega
    -- the packed value, with all fields in range, so the `% 2^64` vanishes
    set yN := u64OfInt c.year with hyN'
    set ymd : Nat := (yN * 13 + c.month) * 32 + c.day with hymd
    set hms : Nat := c.hour * 4096 + c.minute * 64 + c.second with hhms
    set micro : Nat := c.nano / 1000 with hmicro
    have hymdlt : ymd < 4194304 := by omega
    have hhmslt : hms < 131072 := by omega
    have hmicrolt : micro < 16777216 := by omega
    have hX : packOfComponents c = (ymd * 131072 + hms) * 16777216 + micro := by
      simp only [packOfComponents, Nat.mod_eq_of_lt, hymd, hhms, hmicro]
      omega
    have hpack : t.to_packed_u64 = (ymd * 131072 + hms) * 16777216 + micro := by
      rw [Time.to_packed_u64, if_neg hz, ← hbase, ← hc, hX]
    have hU0 : (ymd * 131072 + hms) * 16777216 + micro ≠ 0 := by omega
    rw [hpack]
    simp only [Time.from_packed_u64]
    have hUmod : ((ymd * 131072 + hms) * 16777216 + micro) % 18446744073709551616 =
        (ymd * 131072 + hms) * 16777216 + micro := by omega
    rw [hUmod, if_neg hU0, hfspok]
    -- decode every field
    have e1 : ((ymd * 131072 + hms) * 16777216 + micro) >>> 24 = ymd * 131072 + hms := by
      rw [Nat.shiftRight_eq_div_pow]
      omega
    have e2 : (ymd * 131072 + hms) >>> 17 = ymd := by
      rw [Nat.shiftRight_eq_div_pow]
      omega
    have e3 : ymd % 32 = c.day := by omega
    have e4 : ymd >>> 5 = yN * 13 + c.month := by
      rw [Nat.shiftRight_eq_div_pow]
      omega
    have e5 : (yN * 13 + c.month) % 13 = c.month := by omega
    have e6 : (yN * 13 + c.month) / 13 = yN := by omega
    have e7 : (ymd * 131072 + hms) % 131072 = hms := by omega
    have e8 : hms % 64 = c.second := by omega
    have e9 : (hms >>> 6) % 64 = c.minute := by
      rw [Nat.shiftRight_eq_div_pow]
      omega
    have e10 : hms >>> 12 = c.hour := by
      rw [Nat.shiftRight_eq_div_pow]
      omega
    have e11 : (((ymd * 131072 + hms) * 16777216 + micro) % 16777216 * 1000) % 4294967296
        = c.nano := by omega
    rw [e1, e2, e3, e4, e5, e6, e7, e8, e9, e10, e11]
    have hvalid : 1 ≤ c.month ∧ c.month ≤ 12 ∧ 1 ≤ c.day ∧
        c.day ≤ daysInMonth ((yN : Nat) : Int) c.month ∧
        c.hour < 24 ∧ c.minute < 60 ∧ c.second < 60 := by
      rw [hyN]
      exact ⟨m1, m2, d1, d2, hh, hmi, hs⟩
    -- the instant rebuilt from the components is the original one
    have hback : (daysFromCivil ((yN : Nat) : Int) c.month c.day * 86400 +
        c.hour * 3600 + c.minute * 60 + c.second) * 1000000000 + c.nano = base := by
      rw [hyN]
      exact hre
    by_cases hts : t.tp = typeTIMESTAMP
    · rw [if_pos hts]
      rw [show (ymd_hms_nanos 0 ((yN : Nat) : Int) c.month c.day c.hour c.minute
              c.second c.nano) =
            .ok ⟨(daysFromCivil ((yN : Nat) : Int) c.month c.day * 86400 +
                c.hour * 3600 + c.minute * 60 + c.second - 0) * 1000000000 + c.nano,
              0⟩ by
        simp [ymd_hms_nanos, hvalid]]
      simp only [Time.new, hfspok]
      have hb : base = t.time.inst := by rw [hbase, if_pos hts]
      have : (daysFromCivil ((yN : Nat) : Int) c.month c.day * 86400 +
          c.hour * 3600 + c.minute * 60 + c.second - 0) * 1000000000 + c.nano =
          t.time.inst := by omega
      rw [this]
    · rw [if_neg hts]
      rw [show (ymd_hms_nanos t.time.off ((yN : Nat) : Int) c.month c.day c.hour
              c.minute c.second c.nano) =
            .ok ⟨(daysFromCivil ((yN : Nat) : Int) c.month c.day * 86400 +
                c.hour * 3600 + c.minute * 60 + c.second - t.time.off) * 1000000000 +
              c.nano, t.time.off⟩ by
        simp [ymd_hms_nanos, hvalid]]
      simp only [Time.new, hfspok]
      have hb : base = t.time.inst + t.time.off * 1000000000 := by
        rw [hbase, if_neg hts]; rfl
      have : (daysFromCivil ((yN : Nat) : Int) c.month c.day * 86400 +
          c.hour * 3600 + c.minute * 60 + c.second - t.time.off) * 1000000000 +
          c.nano = t.time.inst := by
        have := hback
        omega
      rw [this]

/-- The concrete legal witness time for the packed round-trip:
2000-06-01 00:00:00.999999 at offset +08:00, DATETIME, fsp 6. -/
def c1WitnessTime : Time := ⟨⟨959788800999999000, 28800⟩, typeDATETIME, 6⟩

theorem c1_packed_roundtrip_witness :
    legalTime c1WitnessTime ∧
    Time.from_packed_u64 c1WitnessTime.to_packed_u64 c1WitnessTime.tp
      (c1WitnessTime.fsp : Int) c1WitnessTime.time.off = .ok c1WitnessTime :=
  ⟨by decide, (c1_packed_roundtrip c1WitnessTime (by decide)).1⟩

/-! ## Claim C6: the `set_tp` state machine -/

/-- Truncating to local midnight zeroes the time-of-day components and keeps
the calendar-day components. -/
theorem dateAndHms0_components (dt : DateTimeTz) :
    componentsOfNanos (dateAndHms0 dt).localNanos =
      { componentsOfNanos dt.localNanos with
          hour := 0, minute := 0, second := 0, nano := 0 } := by
  have hrt := daysFromCivil_civilFromDays ((dt.inst + dt.off * 1000000000) / 86400000000000)
  simp only [DateTimeTz.localNanos]
  have hL : (dateAndHms0 dt).inst + dt.off * 1000000000 =
      (dt.inst + dt.off * 1000000000) / 86400000000000 * 86400000000000 := by
    simp only [dateAndHms0, DateTimeTz.localNanos, hrt]
    ring
  have hoff : (dateAndHms0 dt).off = dt.off := rfl
  rw [hoff, hL]
  have hdays : (dt.inst + dt.off * 1000000000) / 86400000000000 * 86400000000000 /
      86400000000000 = (dt.inst + dt.off * 1000000000) / 86400000000000 := by omega
  have hrem : (dt.inst + dt.off * 1000000000) / 86400000000000 * 86400000000000 %
      86400000000000 = 0 := by omega
  simp only [componentsOfNanos, hdays, hrem]
  rfl

/-- The claim "for every Time, setting tp to TIMESTAMP is forbidden" is
false on the code: on a Time whose tp already is TIMESTAMP, `set_tp`
succeeds (the error is raised only when `self.tp != tp`). -/
theorem c6_set_tp_counterexample :
    Time.set_tp ⟨⟨0, 0⟩, typeTIMESTAMP, 0⟩ typeTIMESTAMP =
      .ok ⟨⟨0, 0⟩, typeTIMESTAMP, 0⟩ := rfl

/-- C6 (amended).  `set_tp` follows the state machine: DATETIME → DATE
truncates the time of day to 00:00:00 (same calendar day, zero hh:mm:ss and
fraction); DATE → DATETIME leaves the stored instant unchanged; changing a
non-TIMESTAMP Time to TIMESTAMP is an error, while `set_tp(TIMESTAMP)` on a
Time that is already a TIMESTAMP succeeds unchanged. -/
theorem c6_set_tp (t : Time) :
    (t.tp = typeDATETIME →
      Time.set_tp t typeDATE = .ok ⟨dateAndHms0 t.time, typeDATE, t.fsp⟩ ∧
      componentsOfNanos (dateAndHms0 t.time).localNanos =
        { componentsOfNanos t.time.localNanos with
            hour := 0, minute := 0, second := 0, nano := 0 }) ∧
    (t.tp = typeDATE → Time.set_tp t typeDATETIME = .ok ⟨t.time, typeDATETIME, t.fsp⟩) ∧
    (t.tp ≠ typeTIMESTAMP →
      Time.set_tp t typeTIMESTAMP =
        .error (.box "can not convert datetime/date to timestamp")) ∧
    (t.tp = typeTIMESTAMP → Time.set_tp t typeTIMESTAMP = .ok t) := by
  obtain ⟨tm, tp, f⟩ := t
  refine ⟨?_, ?_, ?_, ?_⟩
  · intro h
    simp only at h
    subst h
    exact ⟨rfl, dateAndHms0_components tm⟩
  · intro h
    simp only at h
    subst h
    rfl
  · intro h
    simp only at h
    simp only [typeTIMESTAMP] at h
    simp [Time.set_tp, typeDATE, typeTIMESTAMP, h]
  · intro h
    simp only at h
    subst h
    rfl

theorem c6_set_tp_witness :
    Time.set_tp ⟨⟨959817600000000000, 0⟩, typeDATETIME, 0⟩ typeDATE =
      .ok ⟨dateAndHms0 ⟨959817600000000000, 0⟩, typeDATE, 0⟩ ∧
    Time.set_tp ⟨⟨959817600000000000, 0⟩, typeDATETIME, 0⟩ typeTIMESTAMP =
      .error (.box "can not convert datetime/date to timestamp") :=
  ⟨((c6_set_tp ⟨⟨959817600000000000, 0⟩, typeDATETIME, 0⟩).1 rfl).1,
   (c6_set_tp ⟨⟨959817600000000000, 0⟩, typeDATETIME, 0⟩).2.2.1 (by decide)⟩

/-! ## Claim C8: `round_frac`

The source computes `diff = nanos - expect_nanos` and adds it to the time,
which moves the nanosecond field *away* from the rounded value instead of
onto it.  On `2012-12-31 23:59:59.999999` (fsp 6) rounded to fsp 0 the code
produces `2012-12-31 23:59:59.999998` instead of the `2013-01-01 00:00:00`
required by the claim (and by the source's own `test_round_frac`). -/

/-- 2012-12-31 23:59:59.999999 UTC, DATETIME, fsp 6. -/
def c8Time : Time :=
  ⟨⟨(daysFromCivil 2012 12 31 * 86400 + 86399) * 1000000000 + 999999000, 0⟩,
   typeDATETIME, 6⟩

/-- C8: evaluating `round_frac(0)` at the failing input: the result moves
1000 ns backwards (to ...:59.999998) and differs from the day-rollover
result `2013-01-01 00:00:00` that the claim (and the code's own test table)
requires. -/
theorem c8_round_frac_eval :
    Time.round_frac c8Time 0 =
      .ok ⟨⟨(daysFromCivil 2012 12 31 * 86400 + 86399) * 1000000000 + 999998000, 0⟩,
        typeDATETIME, 0⟩ ∧
    Time.round_frac c8Time 0 ≠
      .ok ⟨⟨daysFromCivil 2013 1 1 * 86400000000000, 0⟩, typeDATETIME, 0⟩ := by
  constructor
  · rfl
  · decide

/-! ## The snapshot scanner (scanner.rs)

Byte strings are `List Nat`; Rust's `Vec<u8>` ordering is lexicographic
with a proper prefix ordered first.  The MVCC `Key::from_raw`/`Key::raw`
encoding pair is external and bijective, so keys are kept in raw form
(`key.raw()` never fails on keys produced by the store).  The snapshot
(§6 of the spec) is modelled as a list of key/value entries in ascending
key order; `seek` returns the first entry at or after the seek key and
below the iterator's upper bound, `reverse_seek` the last entry strictly
before it.  The statistics sink only accrues counters and is not part of
any claim, so it is not carried in the state. -/

/-- Three-way lexicographic comparison of byte strings. -/
def bytesCmp : List Nat → List Nat → Ordering
  | [], [] => .eq
  | [], _ :: _ => .lt
  | _ :: _, [] => .gt
  | a :: as, b :: bs =>
    if a < b then .lt else if b < a then .gt else bytesCmp as bs

/-- Rust `a < b` on byte vectors. -/
def bytesLt (a b : List Nat) : Bool := bytesCmp a b == .lt

/-- Rust `a <= b` on byte vectors. -/
def bytesLe (a b : List Nat) : Bool := bytesCmp a b != .gt

theorem bytesCmp_swap : ∀ a b, bytesCmp b a = (bytesCmp a b).swap := by
  intro a
  induction a with
  | nil => intro b; cases b <;> rfl
  | cons x xs ih =>
    intro b
    cases b with
    | nil => rfl
    | cons y ys =>
      simp only [bytesCmp]
      rcases Nat.lt_trichotomy x y with h | h | h
      · have h1 : ¬ y < x := by omega
        simp [h, h1, Ordering.swap]
      · subst h
        simp [Nat.lt_irrefl, ih]
      · have h1 : ¬ x < y := by omega
        simp [h, h1, Ordering.swap]

theorem bytesCmp_le_trans :
    ∀ a b c, bytesCmp a b ≠ .gt → bytesCmp b c ≠ .gt → bytesCmp a c ≠ .gt := by
  intro a
  induction a with
  | nil =>
    intro b c _ _
    cases c <;> simp [bytesCmp]
  | cons x xs ih =>
    intro b c hab hbc
    cases b with
    | nil => simp [bytesCmp] at hab
    | cons y ys =>
      cases c with
      | nil => simp [bytesCmp] at hbc
      | cons z zs =>
        simp only [bytesCmp] at hab hbc ⊢
        rcases Nat.lt_trichotomy x y with h1 | h1 | h1
        · rcases Nat.lt_trichotomy y z with h2 | h2 | h2
          · rw [if_pos (by omega : x < z)]; simp
          · subst h2
            rw [if_pos h1]; simp
          · rw [if_neg (by omega), if_pos h2] at hbc
            simp at hbc
        · subst h1
          rcases Nat.lt_trichotomy x z with h2 | h2 | h2
          · rw [if_pos h2]; simp
          · subst h2
            rw [if_neg (by omega), if_neg (by omega)] at hab hbc ⊢
            exact ih _ _ hab hbc
          · rw [if_neg (by omega), if_pos h2] at hbc
            simp at hbc
        · rw [if_neg (by omega), if_pos h1] at hab
          simp at hab

/-- `KeyRange` (kvproto): `start` inclusive, `stop` (= `get_end()`)
exclusive. -/
structure KeyRange where
  start : List Nat
  stop : List Nat

/-- The handle of an open `StoreScanner` (§6): only its upper bound is
semantically relevant here. -/
structure StoreScannerH where
  upper_bound : Option (List Nat)

/-- `seek`: first entry of the (ascending) store at or after `k`, and below
the upper bound when one is set. -/
def seekFind (ub : Option (List Nat)) (k : List Nat) :
    List (List Nat × List Nat) → Option (List Nat × List Nat)
  | [] => none
  | e :: rest =>
    if bytesLe k e.1 then
      match ub with
      | some u => if bytesLt e.1 u then some e else none
      | none => some e
    else seekFind ub k rest

/-- `reverse_seek`: last entry of the (ascending) store strictly before `k`. -/
def reverseSeekFind (k : List Nat) :
    List (List Nat × List Nat) → Option (List Nat × List Nat)
  | [] => none
  | e :: rest =>
    if bytesLt e.1 k then
      match reverseSeekFind k rest with
      | none => some e
      | some r => some r
    else none

/-- The `Scanner` struct of scanner.rs (`scan_mode` is `true` for
`ScanMode::Backward`); the statistics slot is not modelled. -/
structure Scanner where
  scan_mode : Bool
  key_only : Bool
  seek_key : Option (List Nat)
  scanner : Option StoreScannerH

/-- `Scanner::new`. -/
def Scanner.new (desc key_only : Bool) : Scanner :=
  ⟨desc, key_only, none, none⟩

/-- `Scanner::init_with_range`: bind the scanner to the range, seeding the
seek key with `end` (backward) or `start` (forward) and opening a store
scanner (with upper bound `end` in forward mode). -/
def Scanner.init_with_range (sc : Scanner) (range : KeyRange) : Scanner :=
  if sc.scan_mode then
    { sc with seek_key := some range.stop, scanner := some ⟨none⟩ }
  else
    { sc with seek_key := some range.start, scanner := some ⟨some range.stop⟩ }

/-- `Scanner::next_row` (scanner.rs).  The `unwrap` of `self.scanner` can
panic when a seek key was installed externally before any initialisation;
that panic is modelled as an error.  `key_only` empties the returned value
(the store does this in the source; the key stays authoritative). -/
def Scanner.next_row (sc0 : Scanner) (store : List (List Nat × List Nat))
    (range : KeyRange) :
    Except Err (Option (List Nat × List Nat) × Scanner) :=
  let sc1 := if sc0.seek_key = none then sc0.init_with_range range else sc0
  match sc1.seek_key with
  | none => .error (.box "unreachable: init_with_range installs a seek key")
  | some seekKey =>
    let sc := { sc1 with seek_key := none }
    if bytesLt range.stop range.start then .ok (none, sc)
    else
      match sc.scanner with
      | none => .error (.box "panic: scanner is None")
      | some h =>
        let kv := if sc.scan_mode then reverseSeekFind seekKey store
                  else seekFind h.upper_bound seekKey store
        match kv with
        | none => .ok (none, sc)
        | some (key, value) =>
          if bytesLt key range.start ∨ bytesLe range.stop key then
            .ok (none, sc)
          else .ok (some (key, if sc.key_only then [] else value), sc)

/-- `Scanner::set_seek_key`. -/
def Scanner.set_seek_key (sc : Scanner) (k : Option (List Nat)) : Scanner :=
  { sc with seek_key := k }

/-- `bytesLe` is the boolean negation of the reversed `bytesLt`. -/
theorem bytesLe_eq_not_lt (a b : List Nat) : bytesLe a b = !bytesLt b a := by
  simp only [bytesLe, bytesLt, bytesCmp_swap a b]
  cases bytesCmp a b <;> rfl

theorem bytesLe_trans {a b c : List Nat} (h1 : bytesLe a b = true)
    (h2 : bytesLe b c = true) : bytesLe a c = true := by
  simp only [bytesLe] at h1 h2 ⊢
  have h1' : bytesCmp a b ≠ .gt := by
    intro hq; rw [hq] at h1; exact absurd h1 (by decide)
  have h2' : bytesCmp b c ≠ .gt := by
    intro hq; rw [hq] at h2; exact absurd h2 (by decide)
  have h3 := bytesCmp_le_trans a b c h1' h2'
  cases hq : bytesCmp a c
  · rfl
  · rfl
  · exact absurd hq h3

/-- C2.  In both scan modes, a row returned by `next_row(range)` has its
key inside the half-open range (`start ≤ k < end` lexicographically), and
an empty range (`start ≥ end`) yields no row.  The well-formedness
hypothesis excludes the state that panics in Rust (a seek key installed
externally before any store scanner exists). -/
theorem c2_scanner_range (sc : Scanner) (store : List (List Nat × List Nat))
    (range : KeyRange) (hwf : sc.seek_key = none ∨ sc.scanner ≠ none) :
    (∀ k v sc', Scanner.next_row sc store range = .ok (some (k, v), sc') →
      bytesLe range.start k = true ∧ bytesLt k range.stop = true) ∧
    (bytesLe range.stop range.start = true →
      ∃ sc', Scanner.next_row sc store range = .ok (none, sc')) := by
  have hsc1some : (if sc.seek_key = none then sc.init_with_range range else sc).scanner
      ≠ none := by
    rcases hwf with h | h
    · rw [if_pos h]
      unfold Scanner.init_with_range
      split <;> simp
    · by_cases hsk : sc.seek_key = none
      · rw [if_pos hsk]
        unfold Scanner.init_with_range
        split <;> simp
      · rw [if_neg hsk]; exact h
  have hsk1some : (if sc.seek_key = none then sc.init_with_range range else sc).seek_key
      ≠ none := by
    by_cases hsk : sc.seek_key = none
    · rw [if_pos hsk]
      unfold Scanner.init_with_range
      split <;> simp
    · rw [if_neg hsk]; exact hsk
  constructor
  · intro k v sc' hrow
    simp only [Scanner.next_row] at hrow
    split at hrow
    · exact absurd (by assumption) hsk1some
    · split at hrow
      · simp at hrow
      · split at hrow
        · exact absurd (by assumption) hsc1some
        · split at hrow
          · simp at hrow
          · rename_i key value hkv
            split at hrow
            · simp at hrow
            · rename_i hout
              push_neg at hout
              obtain ⟨hge, hlt⟩ := hout
              simp only [Except.ok.injEq, Prod.mk.injEq, Option.some.injEq] at hrow
              obtain ⟨⟨hk, hv⟩, hs⟩ := hrow
              subst hk
              have hge' : bytesLt key range.start = false := by
                simpa using hge
              have hlt' : bytesLe range.stop key = false := by
                simpa using hlt
              constructor
              · rw [bytesLe_eq_not_lt, hge']
                rfl
              · have hq2 := bytesLe_eq_not_lt range.stop key
                rw [hlt'] at hq2
                simpa using hq2.symm
  · intro hle
    simp only [Scanner.next_row]
    split
    · exact absurd (by assumption) hsk1some
    · split
      · exact ⟨_, rfl⟩
      · split
        · exact absurd (by assumption) hsc1some
        · split
          · exact ⟨_, rfl⟩
          · rename_i key value hkv
            split
            · exact ⟨_, rfl⟩
            · rename_i hout
              push_neg at hout
              obtain ⟨hge, hlt⟩ := hout
              exfalso
              have hge' : bytesLe range.start key = true := by
                rw [bytesLe_eq_not_lt]
                have : bytesLt key range.start = false := by simpa using hge
                rw [this]
                rfl
              have h3 : bytesLe range.stop key = true := bytesLe_trans hle hge'
              exact hlt h3

theorem c2_scanner_range_witness :
    ∃ sc', Scanner.next_row (Scanner.new false false) [([3], [7])]
      ⟨[5], [5]⟩ = .ok (none, sc') :=
  (c2_scanner_range (Scanner.new false false) [([3], [7])] ⟨[5], [5]⟩
    (Or.inl rfl)).2 (by decide)

/-! ## The datetime parser (time.rs)

Strings are lists of characters.  `str::trim` strips (Unicode) whitespace;
only the ASCII whitespace characters are modelled.  `str::parse::<u32>` /
`::<i32>` on the split parts only ever see non-empty all-digit input here
(the splitter rejects anything else), so the numeric parsers check digits
and the overflow bound. -/

/-- A character the datetime splitter does NOT split on:
`!(c < '0' || c > '9')`. -/
def isDigitC (c : Char) : Bool := decide ('0' ≤ c ∧ c ≤ '9')

/-- Whitespace for `str::trim` (ASCII model). -/
def isWhitespaceC (c : Char) : Bool :=
  decide (c = ' ' ∨ c = '\t' ∨ c = '\n' ∨ c = '\r')

/-- Strip leading whitespace. -/
def trimL : List Char → List Char
  | [] => []
  | c :: r => if isWhitespaceC c then trimL r else c :: r

/-- `str::trim`: strip whitespace from both ends. -/
def trimChars (s : List Char) : List Char := ((trimL s).reverse |> trimL).reverse

/-- `split(|c| c < '0' || c > '9')`: cut at every non-digit; consecutive
separators produce empty parts (as Rust's `split` does). -/
def splitNonDigit : List Char → List (List Char)
  | [] => [[]]
  | c :: rest =>
    match splitNonDigit rest with
    | [] => [[]]
    | p :: ps => if isDigitC c then (c :: p) :: ps else [] :: p :: ps

/-- `Time::parse_datetime_format` (time.rs). -/
def parse_datetime_format (s : List Char) : List (List Char) :=
  let trimmed := trimChars s
  if trimmed.isEmpty then []
  else
    let spes := splitNonDigit trimmed
    if spes.any (fun p => p.isEmpty) then [] else spes

/-- Numeric value of a digit character. -/
def digitVal (c : Char) : Nat := c.toNat - 48

/-- Value of a digit string (most significant first). -/
def natOfDigits (l : List Char) : Nat :=
  l.foldl (fun a c => a * 10 + digitVal c) 0

/-- `str::parse::<u32>` on the split parts (all-digit input; a sign never
reaches it because the splitter cuts at every non-digit). -/
def parse_u32 (l : List Char) : Except Err Nat :=
  if l.isEmpty then .error (.box "cannot parse integer from empty string")
  else if l.all isDigitC then
    if natOfDigits l < 4294967296 then .ok (natOfDigits l)
    else .error (.box "number too large to fit in target type")
  else .error (.box "invalid digit found in string")

/-- `str::parse::<i32>` on the split parts (same remark as `parse_u32`). -/
def parse_i32 (l : List Char) : Except Err Int :=
  if l.isEmpty then .error (.box "cannot parse integer from empty string")
  else if l.all isDigitC then
    if natOfDigits l < 2147483648 then .ok (natOfDigits l)
    else .error (.box "number too large to fit in target type")
  else .error (.box "invalid digit found in string")

/-- `split_ymd_hms` (time.rs): fixed-width field extraction; the year takes
four digits for lengths 14 and 8, two digits otherwise; missing hh/mm/ss
fields default to zero. -/
def split_ymd_hms (s : List Char) : Except Err (Int × Nat × Nat × Nat × Nat × Nat) :=
  let yearLen : Nat := if s.length = 14 ∨ s.length = 8 then 4 else 2
  let rest := s.drop yearLen
  match parse_i32 (s.take yearLen) with
  | .error e => .error e
  | .ok year =>
  match parse_u32 (rest.take 2) with
  | .error e => .error e
  | .ok month =>
  match parse_u32 ((rest.drop 2).take 2) with
  | .error e => .error e
  | .ok day =>
  match (if 4 < rest.length then parse_u32 ((rest.drop 4).take 2) else .ok 0) with
  | .error e => .error e
  | .ok hour =>
  match (if 6 < rest.length then parse_u32 ((rest.drop 6).take 2) else .ok 0) with
  | .error e => .error e
  | .ok minute =>
  match (if 8 < rest.length then parse_u32 ((rest.drop 8).take 2) else .ok 0) with
  | .error e => .error e
  | .ok secs => .ok (year, month, day, hour, minute, secs)

/-- Modelled from the spec: `mysql::parse_frac` (not among the sources);
fractional digits beyond the requested `fsp` are rounded half away from
zero (half up, the values being non-negative) and may carry into the whole
seconds (the caller adds the scaled result as nanoseconds). -/
def parse_frac (l : List Char) (fsp : Nat) : Except Err Nat :=
  if l.isEmpty then .ok 0
  else if l.all isDigitC then
    if l.length ≤ fsp then .ok (natOfDigits l * 10 ^ (fsp - l.length))
    else .ok ((natOfDigits l + 10 ^ (l.length - fsp) / 2) / 10 ^ (l.length - fsp))
  else .error (.box "invalid fraction")

/-- The tail of `Time::parse_datetime` after the shape match: two-digit year
adjustment (when `need_adjust || parts[0].len() == 2`), fraction parsing,
the all-zero sentinel, the year range check, and the construction of the
resulting DATETIME. -/
def finish_parse (y0 : Int) (m d h minute sec : Nat) (frac_str : List Char)
    (adjust : Bool) (fspN : Nat) (tz : Int) : Except Err Time :=
  let y : Int :=
    if adjust then
      (if 0 ≤ y0 ∧ y0 ≤ 69 then y0 + 2000
       else if 70 ≤ y0 ∧ y0 ≤ 99 then y0 + 1900 else y0)
    else y0
  match parse_frac frac_str fspN with
  | .error e => .error e
  | .ok frac =>
    if y = 0 ∧ m = 0 ∧ d = 0 ∧ h = 0 ∧ minute = 0 ∧ sec = 0 then
      .ok (zero_datetime tz)
    else if y < 0 ∨ 9999 < y then .error (.box "unsupport year")
    else
      match ymd_hms_nanos tz y m d h minute sec (frac * 10 ^ (9 - fspN)) with
      | .error e => .error e
      | .ok t => Time.new t typeDATETIME (fspN : Int)

/-- `Time::parse_datetime` (time.rs). -/
def Time.parse_datetime (s : List Char) (fsp : Int) (tz : Int) : Except Err Time :=
  match check_fsp fsp with
  | .error e => .error e
  | .ok fspN =>
    match parse_datetime_format s with
    | [s1] =>
      if s1.length = 14 ∨ s1.length = 12 ∨ s1.length = 8 ∨ s1.length = 6 then
        match split_ymd_hms s1 with
        | .error e => .error e
        | .ok (y, m, d, h, mi, sec) =>
          finish_parse y m d h mi sec []
            (((s1.length == 12 || s1.length == 6) || s1.length == 2)) fspN tz
      else .error (.box "invalid datetime")
    | [s1, frac] =>
      if s1.length = 14 ∨ s1.length = 12 then
        match split_ymd_hms s1 with
        | .error e => .error e
        | .ok (y, m, d, h, mi, sec) =>
          finish_parse y m d h mi sec frac
            ((s1.length == 12 || s1.length == 2)) fspN tz
      else .error (.box "invalid datetime")
    | [year, month, day] =>
      match parse_i32 year with
      | .error e => .error e
      | .ok y =>
      match parse_u32 month with
      | .error e => .error e
      | .ok m =>
      match parse_u32 day with
      | .error e => .error e
      | .ok d => finish_parse y m d 0 0 0 [] (year.length == 2) fspN tz
    | [year, month, day, hour, minute, sec] =>
      match parse_i32 year with
      | .error e => .error e
      | .ok y =>
      match parse_u32 month with
      | .error e => .error e
      | .ok m =>
      match parse_u32 day with
      | .error e => .error e
      | .ok d =>
      match parse_u32 hour with
      | .error e => .error e
      | .ok h =>
      match parse_u32 minute with
      | .error e => .error e
      | .ok mi =>
      match parse_u32 sec with
      | .error e => .error e
      | .ok sc => finish_parse y m d h mi sc [] (year.length == 2) fspN tz
    | [year, month, day, hour, minute, sec, frac] =>
      match parse_i32 year with
      | .error e => .error e
      | .ok y =>
      match parse_u32 month with
      | .error e => .error e
      | .ok m =>
      match parse_u32 day with
      | .error e => .error e
      | .ok d =>
      match parse_u32 hour with
      | .error e => .error e
      | .ok h =>
      match parse_u32 minute with
      | .error e => .error e
      | .ok mi =>
      match parse_u32 sec with
      | .error e => .error e
      | .ok sc => finish_parse y m d h mi sc frac (year.length == 2) fspN tz
    | _ => .error (.box "invalid datetime")

/-- `Time::parse_utc_datetime`. -/
def Time.parse_utc_datetime (s : List Char) (fsp : Int) : Except Err Time :=
  Time.parse_datetime s fsp 0

/-! ## Claim C7: two-digit year conversion -/

/-- The digit character of `n ∈ 0..9`. -/
def digitChar (n : Nat) : Char := Char.ofNat (48 + n)

/-- Two-digit zero-padded decimal rendering. -/
def render2 (n : Nat) : List Char := [digitChar (n / 10), digitChar (n % 10)]

/-- Four-digit zero-padded decimal rendering. -/
def render4 (n : Nat) : List Char := render2 (n / 100) ++ render2 (n % 100)

/-- The two-digit-year conversion the claim describes. -/
def yearConv2 (y : Nat) : Int := if y ≤ 69 then (y : Int) + 2000 else (y : Int) + 1900

/-- The Time value `parse_datetime` produces for components
`(Y, m, d, h, mi, s)` with no fraction at offset `tz`. -/
def parsedAt (Y : Int) (m d h mi s : Nat) (tz : Int) : Except Err Time :=
  .ok ⟨⟨(daysFromCivil Y m d * 86400 + h * 3600 + mi * 60 + s - tz) * 1000000000,
    tz⟩, typeDATETIME, 0⟩

theorem render2_all_digits : ∀ n, n < 100 → (render2 n).all isDigitC = true := by
  decide

theorem natOfDigits_render2 : ∀ n, n < 100 → natOfDigits (render2 n) = n := by
  decide

theorem render2_length (n : Nat) : (render2 n).length = 2 := rfl

theorem natOfDigits_foldl_init (l : List Char) :
    ∀ init, l.foldl (fun a c => a * 10 + digitVal c) init =
      init * 10 ^ l.length + natOfDigits l := by
  induction l with
  | nil => intro init; simp [natOfDigits]
  | cons c r ih =>
    intro init
    simp only [List.foldl_cons, natOfDigits, List.length_cons]
    rw [ih (init * 10 + digitVal c), ih (0 * 10 + digitVal c)]
    ring

theorem natOfDigits_append (a b : List Char) :
    natOfDigits (a ++ b) = natOfDigits a * 10 ^ b.length + natOfDigits b := by
  simp only [natOfDigits, List.foldl_append]
  rw [natOfDigits_foldl_init b (List.foldl (fun a c => a * 10 + digitVal c) 0 a)]
  rfl

theorem render4_all_digits {n : Nat} (h : n < 10000) :
    (render4 n).all isDigitC = true := by
  simp only [render4, List.all_append]
  rw [render2_all_digits (n / 100) (by omega), render2_all_digits (n % 100) (by omega)]
  rfl

theorem natOfDigits_render4 {n : Nat} (h : n < 10000) :
    natOfDigits (render4 n) = n := by
  simp only [render4, natOfDigits_append, render2_length]
  rw [natOfDigits_render2 (n / 100) (by omega), natOfDigits_render2 (n % 100) (by omega)]
  omega

theorem digit_not_ws {c : Char} (h : isDigitC c = true) : isWhitespaceC c = false := by
  simp only [isDigitC, decide_eq_true_eq] at h
  simp only [isWhitespaceC, decide_eq_false_iff_not]
  rintro (rfl | rfl | rfl | rfl) <;> simp [Char.le_def] at h

theorem trimL_of_digits {s : List Char} (h : s.all isDigitC = true) : trimL s = s := by
  cases s with
  | nil => rfl
  | cons c r =>
    simp only [List.all_cons, Bool.and_eq_true] at h
    simp [trimL, digit_not_ws h.1]

theorem trimChars_of_digits {s : List Char} (h : s.all isDigitC = true) :
    trimChars s = s := by
  have hrev : s.reverse.all isDigitC = true := by
    rw [List.all_reverse]
    exact h
  simp only [trimChars, trimL_of_digits h, trimL_of_digits hrev, List.reverse_reverse]

theorem splitNonDigit_digits : ∀ {s : List Char}, s.all isDigitC = true →
    splitNonDigit s = [s] := by
  intro s
  induction s with
  | nil => intro _; rfl
  | cons c r ih =>
    intro h
    simp only [List.all_cons, Bool.and_eq_true] at h
    simp only [splitNonDigit, ih h.2, h.1, if_true]

theorem splitNonDigit_append {a : List Char} (ha : a.all isDigitC = true)
    {sep : Char} (hsep : isDigitC sep = false) (rest : List Char) :
    splitNonDigit (a ++ sep :: rest) = a :: splitNonDigit rest := by
  induction a with
  | nil =>
    simp only [List.nil_append, splitNonDigit]
    match hq : splitNonDigit rest with
    | [] => simp [hq, hsep]
    | p :: ps => simp [hq, hsep]
  | cons c r ih =>
    simp only [List.all_cons, Bool.and_eq_true] at ha
    simp only [List.cons_append, splitNonDigit, List.append_eq]
    rw [ih ha.2]
    simp [ha.1]

theorem pdf_digits {s : List Char} (h : s.all isDigitC = true) (hne : s ≠ []) :
    parse_datetime_format s = [s] := by
  simp only [parse_datetime_format, trimChars_of_digits h, splitNonDigit_digits h]
  rw [if_neg (by simpa using hne)]
  simp only [List.any_cons, List.any_nil]
  rw [if_neg (by simpa using hne)]

theorem parse_i32_render2 {n : Nat} (h : n < 100) :
    parse_i32 (render2 n) = .ok (n : Int) := by
  have hne : (render2 n).isEmpty = false := rfl
  simp [parse_i32, hne, render2_all_digits n h, natOfDigits_render2 n h,
    (by omega : n < 2147483648)]

theorem parse_u32_render2 {n : Nat} (h : n < 100) :
    parse_u32 (render2 n) = .ok n := by
  have hne : (render2 n).isEmpty = false := rfl
  simp [parse_u32, hne, render2_all_digits n h, natOfDigits_render2 n h,
    (by omega : n < 4294967296)]

theorem parse_i32_render4 {n : Nat} (h : n < 10000) :
    parse_i32 (render4 n) = .ok (n : Int) := by
  have hne : (render4 n).isEmpty = false := rfl
  simp [parse_i32, hne, render4_all_digits h, natOfDigits_render4 h,
    (by omega : n < 2147483648)]

theorem take_append_len {a rest : List Char} {k : Nat} (h : a.length = k) :
    (a ++ rest).take k = a := by
  subst h
  exact List.take_left a rest

theorem drop_append_len {a rest : List Char} {k : Nat} (h : a.length = k) :
    (a ++ rest).drop k = rest := by
  subst h
  exact List.drop_left a rest

theorem digitChar_digit {k : Nat} (h : k < 10) : isDigitC (digitChar k) = true := by
  interval_cases k <;> decide

theorem finish_parse_adjusted {y : Nat} (m d h mi sec : Nat) (tz : Int)
    (hy : y < 100) (hm : 1 ≤ m) (hm2 : m ≤ 12) (hd1 : 1 ≤ d)
    (hd2 : d ≤ daysInMonth (yearConv2 y) m) (hh : h < 24) (hmi : mi < 60)
    (hs : sec < 60) :
    finish_parse (y : Int) m d h mi sec [] true 0 tz =
      parsedAt (yearConv2 y) m d h mi sec tz := by
  have hadj : (if (0:Int) ≤ (y:Int) ∧ (y:Int) ≤ 69 then (y:Int) + 2000
      else if 70 ≤ (y:Int) ∧ (y:Int) ≤ 99 then (y:Int) + 1900 else (y:Int)) =
      yearConv2 y := by
    unfold yearConv2
    by_cases h69 : y ≤ 69
    · rw [if_pos ⟨by omega, by omega⟩, if_pos h69]
    · rw [if_neg (by omega), if_pos ⟨by omega, by omega⟩, if_neg h69]
  have hfrac : parse_frac [] 0 = .ok 0 := rfl
  have hconv : 1900 ≤ yearConv2 y ∧ yearConv2 y ≤ 2069 := by
    unfold yearConv2; split <;> omega
  simp only [finish_parse, hfrac, hadj, eq_self_iff_true, if_true]
  rw [if_neg (by omega : ¬(yearConv2 y = 0 ∧ m = 0 ∧ d = 0 ∧ h = 0 ∧ mi = 0 ∧ sec = 0))]
  rw [if_neg (by omega : ¬(yearConv2 y < 0 ∨ 9999 < yearConv2 y))]
  rw [show ymd_hms_nanos tz (yearConv2 y) m d h mi sec (0 * 10 ^ (9 - 0)) =
      .ok ⟨(daysFromCivil (yearConv2 y) m d * 86400 + h * 3600 + mi * 60 + sec - tz) *
        1000000000 + 0 * 10 ^ (9 - 0), tz⟩ by
    simp [ymd_hms_nanos, hm, hm2, hd1, hd2, hh, hmi, hs]]
  simp [Time.new, check_fsp, parsedAt]

theorem finish_parse_plain (Y : Int) (m d h mi sec : Nat) (tz : Int)
    (hY0 : 0 ≤ Y) (hY : Y ≤ 9999) (hm : 1 ≤ m) (hm2 : m ≤ 12) (hd1 : 1 ≤ d)
    (hd2 : d ≤ daysInMonth Y m) (hh : h < 24) (hmi : mi < 60) (hs : sec < 60) :
    finish_parse Y m d h mi sec [] false 0 tz = parsedAt Y m d h mi sec tz := by
  have hfrac : parse_frac [] 0 = .ok 0 := rfl
  simp only [finish_parse, hfrac, Bool.false_eq_true, if_false]
  rw [if_neg (by omega : ¬(Y = 0 ∧ m = 0 ∧ d = 0 ∧ h = 0 ∧ mi = 0 ∧ sec = 0))]
  rw [if_neg (by omega : ¬(Y < 0 ∨ 9999 < Y))]
  rw [show ymd_hms_nanos tz Y m d h mi sec (0 * 10 ^ (9 - 0)) =
      .ok ⟨(daysFromCivil Y m d * 86400 + h * 3600 + mi * 60 + sec - tz) *
        1000000000 + 0 * 10 ^ (9 - 0), tz⟩ by
    simp [ymd_hms_nanos, hm, hm2, hd1, hd2, hh, hmi, hs]]
  simp [Time.new, check_fsp, parsedAt]

theorem split_ymd_hms_6 {y m d : Nat} (hy : y < 100) (hm : m < 100) (hd : d < 100) :
    split_ymd_hms (render2 y ++ (render2 m ++ render2 d)) =
      .ok ((y : Int), m, d, 0, 0, 0) := by
  have hlen : (render2 y ++ (render2 m ++ render2 d)).length = 6 := by
    simp [render2]
  simp only [split_ymd_hms]
  rw [if_neg (by omega : ¬((render2 y ++ (render2 m ++ render2 d)).length = 14 ∨
    (render2 y ++ (render2 m ++ render2 d)).length = 8))]
  rw [take_append_len (render2_length y), drop_append_len (render2_length y)]
  rw [take_append_len (render2_length m), drop_append_len (render2_length m)]
  rw [show (render2 d).take 2 = render2 d from rfl]
  rw [show (render2 m ++ render2 d).length = 4 by simp [render2]]
  rw [parse_i32_render2 hy, parse_u32_render2 hm, parse_u32_render2 hd]
  rw [if_neg (by omega : ¬(4 < 4)), if_neg (by omega : ¬(6 < 4)),
    if_neg (by omega : ¬(8 < 4))]

theorem split_ymd_hms_12 {y m d h mi sec : Nat} (hy : y < 100) (hm : m < 100)
    (hd : d < 100) (hh : h < 100) (hmi : mi < 100) (hs : sec < 100) :
    split_ymd_hms (render2 y ++ (render2 m ++ (render2 d ++ (render2 h ++
        (render2 mi ++ render2 sec))))) =
      .ok ((y : Int), m, d, h, mi, sec) := by
  have hlen : (render2 y ++ (render2 m ++ (render2 d ++ (render2 h ++
      (render2 mi ++ render2 sec))))).length = 12 := by simp [render2]
  simp only [split_ymd_hms]
  rw [if_neg (by omega : ¬((render2 y ++ (render2 m ++ (render2 d ++ (render2 h ++
      (render2 mi ++ render2 sec))))).length = 14 ∨ (render2 y ++ (render2 m ++
      (render2 d ++ (render2 h ++ (render2 mi ++ render2 sec))))).length = 8))]
  rw [take_append_len (render2_length y), drop_append_len (render2_length y)]
  set rest := render2 m ++ (render2 d ++ (render2 h ++ (render2 mi ++ render2 sec)))
    with hrest
  have hrl : rest.length = 10 := by simp [hrest, render2]
  have ht2 : rest.take 2 = render2 m := take_append_len (render2_length m)
  have hd2 : rest.drop 2 = render2 d ++ (render2 h ++ (render2 mi ++ render2 sec)) :=
    drop_append_len (render2_length m)
  have hd4 : rest.drop 4 = render2 h ++ (render2 mi ++ render2 sec) := by
    rw [show (4 : Nat) = 2 + 2 from rfl, ← List.drop_drop, hd2]
    exact drop_append_len (render2_length d)
  have hd6 : rest.drop 6 = render2 mi ++ render2 sec := by
    rw [show (6 : Nat) = 4 + 2 from rfl, ← List.drop_drop, hd4]
    exact drop_append_len (render2_length h)
  have hd8 : rest.drop 8 = render2 sec := by
    rw [show (8 : Nat) = 6 + 2 from rfl, ← List.drop_drop, hd6]
    exact drop_append_len (render2_length mi)
  rw [ht2, hd2, take_append_len (render2_length d), hrl]
  rw [if_pos (by omega : 4 < 10), if_pos (by omega : 6 < 10), if_pos (by omega : 8 < 10)]
  rw [hd4, take_append_len (render2_length h), hd6, take_append_len (render2_length mi),
    hd8, show (render2 sec).take 2 = render2 sec from rfl]
  rw [parse_i32_render2 hy, parse_u32_render2 hm, parse_u32_render2 hd,
    parse_u32_render2 hh, parse_u32_render2 hmi, parse_u32_render2 hs]

theorem split_ymd_hms_8 {y m d : Nat} (hy : y < 10000) (hm : m < 100) (hd : d < 100) :
    split_ymd_hms (render4 y ++ (render2 m ++ render2 d)) =
      .ok ((y : Int), m, d, 0, 0, 0) := by
  have hlen : (render4 y ++ (render2 m ++ render2 d)).length = 8 := by
    simp [render4, render2]
  have h4 : (render4 y).length = 4 := rfl
  simp only [split_ymd_hms]
  rw [if_pos (by omega : (render4 y ++ (render2 m ++ render2 d)).length = 14 ∨
    (render4 y ++ (render2 m ++ render2 d)).length = 8)]
  rw [take_append_len h4, drop_append_len h4]
  rw [take_append_len (render2_length m), drop_append_len (render2_length m)]
  rw [show (render2 d).take 2 = render2 d from rfl]
  rw [show (render2 m ++ render2 d).length = 4 by simp [render2]]
  rw [parse_i32_render4 hy, parse_u32_render2 hm, parse_u32_render2 hd]
  rw [if_neg (by omega : ¬(4 < 4)), if_neg (by omega : ¬(6 < 4)),
    if_neg (by omega : ¬(8 < 4))]

theorem split_ymd_hms_14 {y m d h mi sec : Nat} (hy : y < 10000) (hm : m < 100)
    (hd : d < 100) (hh : h < 100) (hmi : mi < 100) (hs : sec < 100) :
    split_ymd_hms (render4 y ++ (render2 m ++ (render2 d ++ (render2 h ++
        (render2 mi ++ render2 sec))))) =
      .ok ((y : Int), m, d, h, mi, sec) := by
  have hlen : (render4 y ++ (render2 m ++ (render2 d ++ (render2 h ++
      (render2 mi ++ render2 sec))))).length = 14 := by simp [render4, render2]
  have h4 : (render4 y).length = 4 := rfl
  simp only [split_ymd_hms]
  rw [if_pos (by omega : (render4 y ++ (render2 m ++ (render2 d ++ (render2 h ++
      (render2 mi ++ render2 sec))))).length = 14 ∨ (render4 y ++ (render2 m ++
      (render2 d ++ (render2 h ++ (render2 mi ++ render2 sec))))).length = 8)]
  rw [take_append_len h4, drop_append_len h4]
  set rest := render2 m ++ (render2 d ++ (render2 h ++ (render2 mi ++ render2 sec)))
    with hrest
  have hrl : rest.length = 10 := by simp [hrest, render2]
  have ht2 : rest.take 2 = render2 m := take_append_len (render2_length m)
  have hd2 : rest.drop 2 = render2 d ++ (render2 h ++ (render2 mi ++ render2 sec)) :=
    drop_append_len (render2_length m)
  have hd4 : rest.drop 4 = render2 h ++ (render2 mi ++ render2 sec) := by
    rw [show (4 : Nat) = 2 + 2 from rfl, ← List.drop_drop, hd2]
    exact drop_append_len (render2_length d)
  have hd6 : rest.drop 6 = render2 mi ++ render2 sec := by
    rw [show (6 : Nat) = 4 + 2 from rfl, ← List.drop_drop, hd4]
    exact drop_append_len (render2_length h)
  have hd8 : rest.drop 8 = render2 sec := by
    rw [show (8 : Nat) = 6 + 2 from rfl, ← List.drop_drop, hd6]
    exact drop_append_len (render2_length mi)
  rw [ht2, hd2, take_append_len (render2_length d), hrl]
  rw [if_pos (by omega : 4 < 10), if_pos (by omega : 6 < 10), if_pos (by omega : 8 < 10)]
  rw [hd4, take_append_len (render2_length h), hd6, take_append_len (render2_length mi),
    hd8, show (render2 sec).take 2 = render2 sec from rfl]
  rw [parse_i32_render4 hy, parse_u32_render2 hm, parse_u32_render2 hd,
    parse_u32_render2 hh, parse_u32_render2 hmi, parse_u32_render2 hs]

theorem daysInMonth_le_31 (y : Int) (m : Nat) : daysInMonth y m ≤ 31 := by
  unfold daysInMonth
  split
  · split <;> omega
  · split <;> omega

theorem pdf_delim {y m d : Nat} (hy : y < 100) (hm : m < 100) (hd : d < 100) :
    parse_datetime_format (render2 y ++ '-' :: (render2 m ++ '-' :: render2 d)) =
      [render2 y, render2 m, render2 d] := by
  have h1 : isDigitC (digitChar (y / 10)) = true := digitChar_digit (by omega)
  have h2 : isDigitC (digitChar (y % 10)) = true := digitChar_digit (by omega)
  have h3 : isDigitC (digitChar (m / 10)) = true := digitChar_digit (by omega)
  have h4 : isDigitC (digitChar (m % 10)) = true := digitChar_digit (by omega)
  have h5 : isDigitC (digitChar (d / 10)) = true := digitChar_digit (by omega)
  have h6 : isDigitC (digitChar (d % 10)) = true := digitChar_digit (by omega)
  have w1 := digit_not_ws h1
  have w6 := digit_not_ws h6
  have hdash : isDigitC '-' = false := rfl
  simp [parse_datetime_format, trimChars, trimL, splitNonDigit, render2,
    h1, h2, h3, h4, h5, h6, w1, w6, hdash]

/-- C7.  Two-digit-year conversion in `parse_datetime`: for every valid
calendar component combination, the purely numeric forms of length 6 and 12
and the delimited form with a two-digit year parse with the year mapped by
`00..=69 → 2000..=2069`, `70..=99 → 1970..=1999`, while the forms of length
8 and 14 parse with their four leading digits as the year unchanged. -/
theorem c7_two_digit_year_conversion (tz : Int) :
    (∀ y m d h mi sec : Nat, y < 100 → 1 ≤ m → m ≤ 12 → 1 ≤ d →
      d ≤ daysInMonth (yearConv2 y) m → h < 24 → mi < 60 → sec < 60 →
      Time.parse_datetime (render2 y ++ (render2 m ++ render2 d)) 0 tz =
        parsedAt (yearConv2 y) m d 0 0 0 tz ∧
      Time.parse_datetime (render2 y ++ (render2 m ++ (render2 d ++ (render2 h ++
          (render2 mi ++ render2 sec))))) 0 tz =
        parsedAt (yearConv2 y) m d h mi sec tz ∧
      Time.parse_datetime (render2 y ++ '-' :: (render2 m ++ '-' :: render2 d)) 0 tz =
        parsedAt (yearConv2 y) m d 0 0 0 tz) ∧
    (∀ y m d h mi sec : Nat, y ≤ 9999 → 1 ≤ m → m ≤ 12 → 1 ≤ d →
      d ≤ daysInMonth (y : Int) m → h < 24 → mi < 60 → sec < 60 →
      Time.parse_datetime (render4 y ++ (render2 m ++ render2 d)) 0 tz =
        parsedAt (y : Int) m d 0 0 0 tz ∧
      Time.parse_datetime (render4 y ++ (render2 m ++ (render2 d ++ (render2 h ++
          (render2 mi ++ render2 sec))))) 0 tz =
        parsedAt (y : Int) m d h mi sec tz) := by
  have hcf : check_fsp 0 = .ok 0 := rfl
  constructor
  · intro y m d h mi sec hy hm1 hm2 hd1 hd2 hh hmi hs
    have hm100 : m < 100 := by omega
    have hd100 : d < 100 := by
      have := daysInMonth_le_31 (yearConv2 y) m
      omega
    refine ⟨?_, ?_, ?_⟩
    · -- length 6: YYMMDD
      have hall : (render2 y ++ (render2 m ++ render2 d)).all isDigitC = true := by
        simp [List.all_append, render2_all_digits y hy,
          render2_all_digits m hm100, render2_all_digits d hd100]
      have hne : (render2 y ++ (render2 m ++ render2 d)) ≠ [] := by simp [render2]
      have hfmt := pdf_digits hall hne
      have hlen : (render2 y ++ (render2 m ++ render2 d)).length = 6 := by
        simp [render2]
      simp only [Time.parse_datetime, hcf, hfmt]
      rw [if_pos (Or.inr (Or.inr (Or.inr hlen)))]
      rw [split_ymd_hms_6 hy hm100 hd100]
      rw [hlen]
      dsimp only
      exact finish_parse_adjusted m d 0 0 0 tz hy hm1 hm2 hd1 hd2
        (by omega) (by omega) (by omega)
    · -- length 12: YYMMDDHHMISS
      have hall : (render2 y ++ (render2 m ++ (render2 d ++ (render2 h ++
          (render2 mi ++ render2 sec))))).all isDigitC = true := by
        simp [List.all_append, render2_all_digits y hy,
          render2_all_digits m hm100, render2_all_digits d hd100,
          render2_all_digits h (by omega), render2_all_digits mi (by omega),
          render2_all_digits sec (by omega)]
      have hne : (render2 y ++ (render2 m ++ (render2 d ++ (render2 h ++
          (render2 mi ++ render2 sec))))) ≠ [] := by simp [render2]
      have hfmt := pdf_digits hall hne
      have hlen : (render2 y ++ (render2 m ++ (render2 d ++ (render2 h ++
          (render2 mi ++ render2 sec))))).length = 12 := by simp [render2]
      simp only [Time.parse_datetime, hcf, hfmt]
      rw [if_pos (Or.inr (Or.inl hlen))]
      rw [split_ymd_hms_12 hy hm100 hd100 (by omega) (by omega) (by omega)]
      rw [hlen]
      dsimp only
      exact finish_parse_adjusted m d h mi sec tz hy hm1 hm2 hd1 hd2 hh hmi hs
    · -- delimited two-digit year: YY-MM-DD
      have hfmt := pdf_delim hy hm100 hd100
      simp only [Time.parse_datetime, hcf, hfmt]
      rw [parse_i32_render2 hy, parse_u32_render2 hm100, parse_u32_render2 hd100]
      dsimp only
      exact finish_parse_adjusted m d 0 0 0 tz hy hm1 hm2 hd1 hd2
        (by omega) (by omega) (by omega)
  · intro y m d h mi sec hy hm1 hm2 hd1 hd2 hh hmi hs
    have hy10000 : y < 10000 := by omega
    have hm100 : m < 100 := by omega
    have hd100 : d < 100 := by
      have := daysInMonth_le_31 (y : Int) m
      omega
    constructor
    · -- length 8: YYYYMMDD
      have hall : (render4 y ++ (render2 m ++ render2 d)).all isDigitC = true := by
        simp [List.all_append, render4_all_digits hy10000,
          render2_all_digits m hm100, render2_all_digits d hd100]
      have hne : (render4 y ++ (render2 m ++ render2 d)) ≠ [] := by
        simp [render4, render2]
      have hfmt := pdf_digits hall hne
      have hlen : (render4 y ++ (render2 m ++ render2 d)).length = 8 := by
        simp [render4, render2]
      simp only [Time.parse_datetime, hcf, hfmt]
      rw [if_pos (Or.inr (Or.inr (Or.inl hlen)))]
      rw [split_ymd_hms_8 hy10000 hm100 hd100]
      rw [hlen]
      dsimp only
      exact finish_parse_plain (y : Int) m d 0 0 0 tz (by omega) (by omega)
        hm1 hm2 hd1 hd2 (by omega) (by omega) (by omega)
    · -- length 14: YYYYMMDDHHMISS
      have hall : (render4 y ++ (render2 m ++ (render2 d ++ (render2 h ++
          (render2 mi ++ render2 sec))))).all isDigitC = true := by
        simp [List.all_append, render4_all_digits hy10000,
          render2_all_digits m hm100, render2_all_digits d hd100,
          render2_all_digits h (by omega), render2_all_digits mi (by omega),
          render2_all_digits sec (by omega)]
      have hne : (render4 y ++ (render2 m ++ (render2 d ++ (render2 h ++
          (render2 mi ++ render2 sec))))) ≠ [] := by simp [render4, render2]
      have hfmt := pdf_digits hall hne
      have hlen : (render4 y ++ (render2 m ++ (render2 d ++ (render2 h ++
          (render2 mi ++ render2 sec))))).length = 14 := by simp [render4, render2]
      simp only [Time.parse_datetime, hcf, hfmt]
      rw [if_pos (Or.inl hlen)]
      rw [split_ymd_hms_14 hy10000 hm100 hd100 (by omega) (by omega) (by omega)]
      rw [hlen]
      dsimp only
      exact finish_parse_plain (y : Int) m d h mi sec tz (by omega) (by omega)
        hm1 hm2 hd1 hd2 hh hmi hs

theorem c7_two_digit_year_witness :
    Time.parse_datetime (render2 69 ++ '-' :: (render2 12 ++ '-' :: render2 31)) 0 0 =
      parsedAt 2069 12 31 0 0 0 0 ∧
    Time.parse_datetime (render2 70 ++ '-' :: (render2 1 ++ '-' :: render2 1)) 0 0 =
      parsedAt 1970 1 1 0 0 0 0 ∧
    Time.parse_datetime (render2 99 ++ '-' :: (render2 12 ++ '-' :: render2 31)) 0 0 =
      parsedAt 1999 12 31 0 0 0 0 :=
  ⟨((c7_two_digit_year_conversion 0).1 69 12 31 0 0 0 (by decide) (by decide)
      (by decide) (by decide) (by decide) (by decide) (by decide) (by decide)).2.2,
   ((c7_two_digit_year_conversion 0).1 70 1 1 0 0 0 (by decide) (by decide)
      (by decide) (by decide) (by decide) (by decide) (by decide) (by decide)).2.2,
   ((c7_two_digit_year_conversion 0).1 99 12 31 0 0 0 (by decide) (by decide)
      (by decide) (by decide) (by decide) (by decide) (by decide) (by decide)).2.2⟩

/-! ## The expression evaluator (select/xeval/evaluator.rs)

The evaluator manipulates `Datum` values (codec/datum.rs) and walks
`tipb::Expr` trees.  `datum.rs`, the `mysql` submodules other than
`time.rs`, and the `tipb` crate are not among the sources, so the
definitions below that come from them are modelled from the spec; the
evaluator itself (dispatch, short-circuit, arity and Null handling,
`check_in`) is translated from `evaluator.rs` directly. -/

/-- Three-way comparison on rationals (Rust `PartialOrd` + total order). -/
def qcmp (x y : Rat) : Ordering :=
  if x < y then .lt else if x = y then .eq else .gt

/-- Three-way comparison on integers. -/
def icmp (x y : Int) : Ordering :=
  if x < y then .lt else if x = y then .eq else .gt

/-- Modelled from the spec: an in-memory JSON tree (`mysql/json`, not among
the sources); numbers are carried exactly.  Arrays and objects are
cons-encoded (`arrCons`/`objCons` chains ended by `arrNil`/`objNil`) so
that the tree is a plain non-nested inductive. -/
inductive Json where
  | null
  | bool (b : Bool)
  | num (q : Rat)
  | str (s : List Nat)
  | arrNil
  | arrCons (hd : Json) (tl : Json)
  | objNil
  | objCons (key : List Nat) (val : Json) (tl : Json)
  deriving DecidableEq

/-- Modelled from the spec: the tagged value the evaluator manipulates
(`Datum`, codec/datum.rs, not among the sources).  `F64` and `Dec` carry
exact rational values, `Dur` is signed nanoseconds plus fsp, `Bytes` is a
byte string. -/
inductive Datum where
  | Null
  | I64 (i : Int)
  | U64 (u : Nat)
  | F64 (f : Rat)
  | Bytes (b : List Nat)
  | Dec (q : Rat)
  | Dur (nanos : Int) (fsp : Nat)
  | Time (t : Time)
  | Json (j : Json)
  deriving DecidableEq

/-- `FLAG_IGNORE_TRUNCATE` (evaluator.rs). -/
def FLAG_IGNORE_TRUNCATE : Nat := 1

/-- `FLAG_TRUNCATE_AS_WARNING` (evaluator.rs). -/
def FLAG_TRUNCATE_AS_WARNING : Nat := 2

/-- `ONE_DAY` (evaluator.rs), in seconds. -/
def ONE_DAY : Int := 3600 * 24

/-- `EvalContext` (evaluator.rs): the timezone offset in seconds plus the
two truncation flags. -/
structure EvalContext where
  tz : Int
  ignore_truncate : Bool
  truncate_as_warning : Bool
  deriving DecidableEq

/-- chrono `FixedOffset::east_opt`: defined for offsets strictly inside one
day. -/
def east_opt (secs : Int) : Option Int :=
  if -86400 < secs ∧ secs < 86400 then some secs else none

/-- `EvalContext::new` (evaluator.rs): reject offsets outside the open
interval, build the chrono offset, then decode the two flag bits. -/
def EvalContext.new (tz_offset : Int) (flags : Nat) : Except Err EvalContext :=
  if tz_offset ≤ -ONE_DAY ∨ ONE_DAY ≤ tz_offset then
    .error (.eval "invalid tz offset")
  else
    match east_opt tz_offset with
    | Option.none => .error (.eval "invalid tz offset")
    | some tz =>
      .ok ⟨tz, decide (0 < flags &&& FLAG_IGNORE_TRUNCATE),
           decide (0 < flags &&& FLAG_TRUNCATE_AS_WARNING)⟩

/-- Modelled from the spec: numeric value of the leading digits of a byte
string (helper for the MySQL longest-numeric-prefix parse). -/
def bytesDigitsVal : List Nat → Nat → Nat × List Nat
  | c :: r, acc =>
    if 48 ≤ c ∧ c ≤ 57 then bytesDigitsVal r (acc * 10 + (c - 48))
    else (acc, c :: r)
  | [], acc => (acc, [])

/-- Modelled from the spec: value of a fraction's digit string. -/
def bytesFracVal : List Nat → Rat → Rat → Rat
  | c :: r, scale, acc =>
    if 48 ≤ c ∧ c ≤ 57 then
      bytesFracVal r (scale / 10) (acc + scale * (((c - 48 : Nat) : Int) : Rat))
    else acc
  | [], _, acc => acc

/-- Modelled from the spec: the non-negative numeric prefix of a byte
string: integer digits and an optional `.fraction`. -/
def bytesNumPos (r : List Nat) : Rat :=
  match bytesDigitsVal r 0 with
  | (ip, 46 :: fr) => ((ip : Int) : Rat) + bytesFracVal fr (1 / 10) 0
  | (ip, _) => ((ip : Int) : Rat)

/-- Modelled from the spec: bytes parse to a number by their longest
numeric prefix, with an optional leading minus sign. -/
def bytesNum : List Nat → Rat
  | 45 :: r => - bytesNumPos r
  | r => bytesNumPos r

/-- Modelled from the spec: boolean coercion of a Datum
(`Datum::into_bool(ctx)`, codec/datum.rs): Null has no boolean value,
numbers are true iff non-zero, byte strings go through their numeric
value, a Time is true iff it is not the zero sentinel, Json cannot
coerce. -/
def Datum.into_bool (d : Datum) (_ctx : EvalContext) :
    Except Err (Option Bool) :=
  match d with
  | .Null => .ok Option.none
  | .I64 i => .ok (some (i != 0))
  | .U64 u => .ok (some (u != 0))
  | .F64 f => .ok (some (f != 0))
  | .Bytes b => .ok (some (bytesNum b != 0))
  | .Dec q => .ok (some (q != 0))
  | .Dur n _ => .ok (some (n != 0))
  | .Time t => .ok (some (! t.is_zero))
  | .Json _ => .error (.eval "cannot convert json to bool")

/-- Modelled from the spec: the numeric value a Datum contributes to a
coerced comparison or arithmetic (a Duration counts as its seconds). -/
def Datum.numVal : Datum → Option Rat
  | .I64 i => some ((i : Rat))
  | .U64 u => some ((u : Rat))
  | .F64 f => some f
  | .Dec q => some q
  | .Dur n _ => some ((n : Rat) / 1000000000)
  | _ => Option.none

/-- Modelled from the spec: SQL comparison of two Datums
(`Datum::cmp(ctx, other)`, codec/datum.rs): Null sorts below everything,
byte strings compare lexicographically with each other and numerically
against numbers, the numeric kinds compare on their coerced numeric value,
Times compare on their instants; other mixtures are errors. -/
def Datum.cmp (a : Datum) (_ctx : EvalContext) (b : Datum) :
    Except Err Ordering :=
  match a, b with
  | .Null, .Null => .ok .eq
  | .Null, _ => .ok .lt
  | _, .Null => .ok .gt
  | .Bytes x, .Bytes y => .ok (bytesCmp x y)
  | .Time t1, .Time t2 => .ok (icmp t1.time.inst t2.time.inst)
  | .Bytes x, b =>
    match b.numVal with
    | some q => .ok (qcmp (bytesNum x) q)
    | Option.none => .error (.eval "incomparable datums")
  | a, .Bytes y =>
    match a.numVal with
    | some q => .ok (qcmp q (bytesNum y))
    | Option.none => .error (.eval "incomparable datums")
  | a, b =>
    match a.numVal, b.numVal with
    | some x, some y => .ok (qcmp x y)
    | _, _ => .error (.eval "incomparable datums")

/-- Modelled from the spec: conversion to arithmetic form
(`Datum::into_arith(ctx)`): bytes parse to Float, a Duration becomes a
Decimal of seconds with its fsp, Time is disallowed, everything else is
unchanged. -/
def Datum.into_arith (d : Datum) (_ctx : EvalContext) : Except Err Datum :=
  match d with
  | .Bytes b => .ok (.F64 (bytesNum b))
  | .Dur n _ => .ok (.Dec ((n : Rat) / 1000000000))
  | .Time _ => .error (.eval "time is disallowed in arithmetic")
  | d => .ok d

def Datum.isF64 : Datum → Bool
  | .F64 _ => true
  | _ => false

def Datum.isDec : Datum → Bool
  | .Dec _ => true
  | _ => false

/-- Promotion of an exact operand to Float. -/
def toF64D : Datum → Datum
  | .I64 i => .F64 ((i : Rat))
  | .U64 u => .F64 ((u : Rat))
  | .Dec q => .F64 q
  | d => d

/-- Promotion of an integer operand to Decimal. -/
def toDecD : Datum → Datum
  | .I64 i => .Dec ((i : Rat))
  | .U64 u => .Dec ((u : Rat))
  | d => d

/-- Modelled from the spec: `Datum::coerce` promotes both operands to a
common kind under the precedence Float > Decimal > integer; Null passes
through untouched. -/
def Datum.coerce (a b : Datum) : Except Err (Datum × Datum) :=
  if a.isF64 || b.isF64 then .ok (toF64D a, toF64D b)
  else if a.isDec || b.isDec then .ok (toDecD a, toDecD b)
  else .ok (a, b)

/-- Modelled from the spec: the divisor-is-zero test of
`Div`/`IntDiv`/`Mod`. -/
def Datum.isZeroVal : Datum → Bool
  | .I64 i => i == 0
  | .U64 u => u == 0
  | .F64 f => f == 0
  | .Dec q => q == 0
  | _ => false

/-- Is `x` representable as an `i64`? -/
def i64InRange (x : Int) : Bool :=
  decide (-9223372036854775808 ≤ x ∧ x < 9223372036854775808)

/-- Truncation of a rational towards zero (Rust `as i64` on a float
quotient, MySQL integer division). -/
def ratTrunc (q : Rat) : Int :=
  if q < 0 then -((-q).floor) else q.floor

/-- Modelled from the spec: `Datum::checked_add` after coercion: same-kind
arithmetic; signed overflow is an error, unsigned and mixed-sign integer
addition wraps modulo 2^64 (as the evaluator's own tests pin down). -/
def Datum.checked_add (a : Datum) (_ctx : EvalContext) (b : Datum) :
    Except Err Datum :=
  match a, b with
  | .F64 x, .F64 y => .ok (.F64 (x + y))
  | .Dec x, .Dec y => .ok (.Dec (x + y))
  | .I64 x, .I64 y =>
    if i64InRange (x + y) then .ok (.I64 (x + y))
    else .error (.eval "overflow")
  | .U64 x, .U64 y => .ok (.U64 ((x + y) % 18446744073709551616))
  | .I64 x, .U64 y => .ok (.U64 (u64OfInt (x + (y : Int))))
  | .U64 x, .I64 y => .ok (.U64 (u64OfInt ((x : Int) + y)))
  | _, _ => .error (.eval "invalid operands")

/-- Modelled from the spec: `Datum::checked_minus`. -/
def Datum.checked_minus (a : Datum) (_ctx : EvalContext) (b : Datum) :
    Except Err Datum :=
  match a, b with
  | .F64 x, .F64 y => .ok (.F64 (x - y))
  | .Dec x, .Dec y => .ok (.Dec (x - y))
  | .I64 x, .I64 y =>
    if i64InRange (x - y) then .ok (.I64 (x - y))
    else .error (.eval "overflow")
  | .U64 x, .U64 y => .ok (.U64 (u64OfInt ((x : Int) - (y : Int))))
  | .I64 x, .U64 y => .ok (.U64 (u64OfInt (x - (y : Int))))
  | .U64 x, .I64 y => .ok (.U64 (u64OfInt ((x : Int) - y)))
  | _, _ => .error (.eval "invalid operands")

/-- Modelled from the spec: `Datum::checked_mul`. -/
def Datum.checked_mul (a : Datum) (_ctx : EvalContext) (b : Datum) :
    Except Err Datum :=
  match a, b with
  | .F64 x, .F64 y => .ok (.F64 (x * y))
  | .Dec x, .Dec y => .ok (.Dec (x * y))
  | .I64 x, .I64 y =>
    if i64InRange (x * y) then .ok (.I64 (x * y))
    else .error (.eval "overflow")
  | .U64 x, .U64 y => .ok (.U64 ((x * y) % 18446744073709551616))
  | .I64 x, .U64 y => .ok (.U64 (u64OfInt (x * (y : Int))))
  | .U64 x, .I64 y => .ok (.U64 (u64OfInt ((x : Int) * y)))
  | _, _ => .error (.eval "invalid operands")

/-- Modelled from the spec: `Datum::checked_div`: division by zero yields
Null (not an error); Float stays Float, exact operands yield a Decimal. -/
def Datum.checked_div (a : Datum) (_ctx : EvalContext) (b : Datum) :
    Except Err Datum :=
  if b.isZeroVal then .ok .Null
  else
    match a, b with
    | .F64 x, .F64 y => .ok (.F64 (x / y))
    | .Dec x, .Dec y => .ok (.Dec (x / y))
    | .I64 x, .I64 y => .ok (.Dec ((x : Rat) / (y : Rat)))
    | .U64 x, .U64 y => .ok (.Dec ((x : Rat) / (y : Rat)))
    | .I64 x, .U64 y => .ok (.Dec ((x : Rat) / (y : Rat)))
    | .U64 x, .I64 y => .ok (.Dec ((x : Rat) / (y : Rat)))
    | _, _ => .error (.eval "invalid operands")

/-- Modelled from the spec: `Datum::checked_int_div`: division by zero
yields Null; the result is an integer (floats truncate towards zero,
pure unsigned stays unsigned, mixed signed/unsigned wraps). -/
def Datum.checked_int_div (a : Datum) (_ctx : EvalContext) (b : Datum) :
    Except Err Datum :=
  if b.isZeroVal then .ok .Null
  else
    match a, b with
    | .I64 x, .I64 y =>
      if i64InRange (Int.tdiv x y) then .ok (.I64 (Int.tdiv x y))
      else .error (.eval "overflow")
    | .U64 x, .U64 y => .ok (.U64 (x / y))
    | .I64 x, .U64 y => .ok (.U64 (u64OfInt (Int.tdiv x (y : Int))))
    | .U64 x, .I64 y => .ok (.U64 (u64OfInt (Int.tdiv (x : Int) y)))
    | .F64 x, .F64 y =>
      if i64InRange (ratTrunc (x / y)) then .ok (.I64 (ratTrunc (x / y)))
      else .error (.eval "overflow")
    | .Dec x, .Dec y =>
      if i64InRange (ratTrunc (x / y)) then .ok (.I64 (ratTrunc (x / y)))
      else .error (.eval "overflow")
    | _, _ => .error (.eval "invalid operands")

/-- Modelled from the spec: `Datum::checked_rem`: modulo by zero yields
Null; the remainder keeps the sign of the dividend. -/
def Datum.checked_rem (a : Datum) (_ctx : EvalContext) (b : Datum) :
    Except Err Datum :=
  if b.isZeroVal then .ok .Null
  else
    match a, b with
    | .I64 x, .I64 y => .ok (.I64 (Int.tmod x y))
    | .U64 x, .U64 y => .ok (.U64 (x % y))
    | .I64 x, .U64 y => .ok (.I64 (Int.tmod x (y : Int)))
    | .U64 x, .I64 y => .ok (.U64 (x % y.natAbs))
    | .F64 x, .F64 y => .ok (.F64 (x - y * ((ratTrunc (x / y) : Int) : Rat)))
    | .Dec x, .Dec y => .ok (.Dec (x - y * ((ratTrunc (x / y) : Int) : Rat)))
    | _, _ => .error (.eval "invalid operands")

/-- ASCII lower-casing of one byte (`to_ascii_lowercase`). -/
def asciiLower (c : Nat) : Nat :=
  if 65 ≤ c ∧ c ≤ 90 then c + 32 else c

/-- ASCII lower-casing of a byte string. -/
def bytesLower (b : List Nat) : List Nat := b.map asciiLower

/-- `x.is_ascii() && x.is_alphabetic()` on a byte. -/
def isAsciiAlpha (c : Nat) : Bool :=
  decide ((65 ≤ c ∧ c ≤ 90) ∨ (97 ≤ c ∧ c ≤ 122))

/-- `s.starts_with(p)` on byte strings. -/
def startsWithB : List Nat → List Nat → Bool
  | _, [] => true
  | [], _ :: _ => false
  | c :: s, d :: p => c == d && startsWithB s p

/-- `s.ends_with(p)` on byte strings. -/
def endsWithB (s p : List Nat) : Bool := startsWithB s.reverse p.reverse

/-- `s.contains(p)` on byte strings. -/
def containsB : List Nat → List Nat → Bool
  | [], p => p.isEmpty
  | c :: r, p => startsWithB (c :: r) p || containsB r p

/-- Digits of a natural number in ASCII, most significant first (64-bit
values have at most 20 digits, so the fuel never runs out on the modelled
domain). -/
def natBytesAux : Nat → Nat → List Nat
  | 0, _ => []
  | fuel + 1, n =>
    if n = 0 then [] else natBytesAux fuel (n / 10) ++ [48 + n % 10]

def natBytes (n : Nat) : List Nat :=
  if n = 0 then [48] else natBytesAux 30 n

def intBytes (i : Int) : List Nat :=
  if i < 0 then 45 :: natBytes i.natAbs else natBytes i.toNat

/-- Modelled from the spec: `Datum::into_string` on the kinds exercised by
the modelled pattern match (byte strings pass through, integers render in
decimal; the remaining conversions are outside the modelled fragment). -/
def Datum.into_string : Datum → Except Err (List Nat)
  | .Bytes b => .ok b
  | .I64 i => .ok (intBytes i)
  | .U64 u => .ok (natBytes u)
  | _ => .error (.eval "string conversion not modelled")

/-- The three JSON modify flavours (`ModifyType`, mysql/json). -/
inductive ModifyType where
  | Set
  | Insert
  | Replace
  deriving DecidableEq

/-- Modelled from the spec: parse a Datum into a JSON path expression;
paths are single-element byte strings here (no wildcards, not the
root). -/
def Datum.to_json_path_expr : Datum → Except Err (List Nat)
  | .Bytes b => .ok b
  | _ => .error (.eval "invalid json path")

/-- Modelled from the spec: cast a Datum into a JSON value. -/
def Datum.cast_as_json : Datum → Except Err Tikv.Json
  | .Json j => .ok j
  | .Bytes s => .ok (.str s)
  | .I64 i => .ok (.num ((i : Rat)))
  | .U64 u => .ok (.num ((u : Rat)))
  | .F64 f => .ok (.num f)
  | .Dec q => .ok (.num q)
  | .Null => .ok .null
  | _ => .error (.eval "cannot cast to json")

/-- Modelled from the spec: wrap a Datum as a JSON value (a byte string
becomes a JSON string). -/
def Datum.into_json : Datum → Except Err Tikv.Json
  | .Json j => .ok j
  | .Bytes s => .ok (.str s)
  | .I64 i => .ok (.num ((i : Rat)))
  | .U64 u => .ok (.num ((u : Rat)))
  | .F64 f => .ok (.num f)
  | .Dec q => .ok (.num q)
  | .Null => .ok .null
  | _ => .error (.eval "cannot convert to json")

def Json.isArr : Json → Bool
  | .arrNil => true
  | .arrCons _ _ => true
  | _ => false

def Json.isObj : Json → Bool
  | .objNil => true
  | .objCons _ _ _ => true
  | _ => false

def Json.arrAppend : Json → Json → Json
  | .arrCons h t, b => .arrCons h (t.arrAppend b)
  | _, b => b

def Json.objAppend : Json → Json → Json
  | .objCons k v t, b => .objCons k v (t.objAppend b)
  | _, b => b

/-- Modelled from the spec: `Json::merge` follows the MySQL rules: arrays
concatenate, objects merge their fields, scalars wrap into arrays. -/
def Json.merge (a b : Json) : Json :=
  if a.isArr && b.isArr then a.arrAppend b
  else if a.isObj && b.isObj then a.objAppend b
  else if a.isArr then a.arrAppend (.arrCons b .arrNil)
  else if b.isArr then (Json.arrCons a .arrNil).arrAppend b
  else .arrCons a (.arrCons b .arrNil)

def Json.lookupKey : Json → List Nat → Option Json
  | .objCons k v t, q => if k = q then some v else t.lookupKey q
  | _, _ => Option.none

def Json.replaceKey : Json → List Nat → Json → Json
  | .objCons k v t, q, nv =>
    if k = q then .objCons k nv t else .objCons k v (t.replaceKey q nv)
  | j, _, _ => j

def Json.appendKey : Json → List Nat → Json → Json
  | .objCons k v t, q, nv => .objCons k v (t.appendKey q nv)
  | .objNil, q, nv => .objCons q nv .objNil
  | j, _, _ => j

/-- Modelled from the spec: one `set`/`insert`/`replace` step at a
top-level object key (nested paths are outside the modelled fragment):
`Insert` never overwrites, `Replace` never creates, `Set` does both. -/
def Json.modify1 (j : Json) (k : List Nat) (v : Json) (mt : ModifyType) :
    Json :=
  if j.isObj then
    match j.lookupKey k with
    | some _ => if mt = .Insert then j else j.replaceKey k v
    | Option.none => if mt = .Replace then j else j.appendKey k v
  else j

/-- Modelled from the spec: `Json::modify` applies the path/value pairs in
order. -/
def Json.modify (j : Json) : List (List Nat) → List Json → ModifyType →
    Except Err Json
  | [], _, _ => .ok j
  | k :: ks, v :: vs, mt => Json.modify (j.modify1 k v mt) ks vs mt
  | _ :: _, [], _ => .error (.eval "keys and values mismatch")

def Json.removeKey : Json → List Nat → Json
  | .objCons k v t, q => if k = q then t else .objCons k v (t.removeKey q)
  | j, _ => j

/-- Modelled from the spec: `Json::remove` deletes each (single-element,
non-root) path's top-level key in turn. -/
def Json.remove (j : Json) (paths : List (List Nat)) : Except Err Json :=
  .ok (paths.foldl Json.removeKey j)

/-- Modelled from the spec: `Json::extract` for a single top-level key
path. -/
def Json.extract (j : Json) : List (List Nat) → Option Json
  | [k] => j.lookupKey k
  | _ => Option.none

/-- Modelled from the spec: `Json::unquote` unwraps a JSON string. -/
def Json.unquote : Json → Except Err (List Nat)
  | .str s => .ok s
  | _ => .error (.eval "unquote not modelled")

/-- Modelled from the spec: `Json::json_type`, the MySQL type-name bytes
(`"NULL"`, `"BOOLEAN"`, `"DOUBLE"`, `"STRING"`, `"ARRAY"`, `"OBJECT"`). -/
def Json.json_type : Json → List Nat
  | .null => [78, 85, 76, 76]
  | .bool _ => [66, 79, 79, 76, 69, 65, 78]
  | .num _ => [68, 79, 85, 66, 76, 69]
  | .str _ => [83, 84, 82, 73, 78, 71]
  | .arrNil => [65, 82, 82, 65, 89]
  | .arrCons _ _ => [65, 82, 82, 65, 89]
  | .objNil => [79, 66, 74, 69, 67, 84]
  | .objCons _ _ _ => [79, 66, 74, 69, 67, 84]

/-- Modelled from the spec: `json_object` pairs up `key, value, …`
children (an odd count is an arity error). -/
def json_objectAux : List Datum → Except Err Json
  | [] => .ok .objNil
  | [_] => .error (.expr "unexpected arity")
  | k :: v :: r =>
    match k.into_string with
    | .error e => .error e
    | .ok ks =>
      match v.into_json with
      | .error e => .error e
      | .ok vj =>
        match json_objectAux r with
        | .error e => .error e
        | .ok rest => .ok (.objCons ks vj rest)

def json_object (l : List Datum) : Except Err Json := json_objectAux l

/-- Modelled from the spec: `json_array` wraps the children. -/
def json_array : List Datum → Except Err Json
  | [] => .ok .arrNil
  | d :: r =>
    match d.into_json with
    | .error e => .error e
    | .ok j =>
      match json_array r with
      | .error e => .error e
      | .ok rest => .ok (.arrCons j rest)

/-- `MAX_FSP` (mysql). -/
def MAX_FSP : Int := 6

/-- Modelled from the spec: `Duration::from_nanos` (mysql/duration.rs, not
among the sources): the fsp is validated by `check_fsp` and the value must
satisfy the MySQL duration range `|d| < 24h * 36501`. -/
def durationFromNanos (n : Int) (fsp : Int) : Except Err (Int × Nat) :=
  match check_fsp fsp with
  | .error e => .error e
  | .ok f =>
    if n.natAbs < 86400000000000 * 36501 then .ok (n, f)
    else .error (.eval "duration out of range")

/-- `util::is_even`. -/
def is_even (n : Nat) : Bool := n % 2 == 0

/-- Modelled from the spec: the `tipb::ExprType` tags `Evaluator::eval`
can meet; `Other` stands for every further tag of the protobuf enum. -/
inductive ExprType where
  | Null
  | Int64
  | Uint64
  | Float32
  | Float64
  | String
  | Bytes
  | MysqlBit
  | MysqlDecimal
  | MysqlDuration
  | MysqlEnum
  | MysqlHex
  | MysqlSet
  | MysqlTime
  | MysqlJson
  | ValueList
  | ColumnRef
  | LT
  | LE
  | EQ
  | NE
  | GE
  | GT
  | NullEQ
  | And
  | Or
  | Not
  | Like
  | In
  | Plus
  | Div
  | Minus
  | Mul
  | IntDiv
  | Mod
  | Case
  | If
  | Coalesce
  | IfNull
  | IsNull
  | NullIf
  | JsonSet
  | JsonInsert
  | JsonReplace
  | JsonUnquote
  | JsonExtract
  | JsonType
  | JsonMerge
  | JsonObject
  | JsonArray
  | JsonRemove
  | ScalarFunc
  | Other (code : Nat)

/-- A numeric code for each tag (equality on `ExprType` is decided through
this retraction, which keeps the decision procedure's term small). -/
def ExprType.toCode : ExprType → Nat
  | .Null => 0
  | .Int64 => 1
  | .Uint64 => 2
  | .Float32 => 3
  | .Float64 => 4
  | .String => 5
  | .Bytes => 6
  | .MysqlBit => 7
  | .MysqlDecimal => 8
  | .MysqlDuration => 9
  | .MysqlEnum => 10
  | .MysqlHex => 11
  | .MysqlSet => 12
  | .MysqlTime => 13
  | .MysqlJson => 14
  | .ValueList => 15
  | .ColumnRef => 16
  | .LT => 17
  | .LE => 18
  | .EQ => 19
  | .NE => 20
  | .GE => 21
  | .GT => 22
  | .NullEQ => 23
  | .And => 24
  | .Or => 25
  | .Not => 26
  | .Like => 27
  | .In => 28
  | .Plus => 29
  | .Div => 30
  | .Minus => 31
  | .Mul => 32
  | .IntDiv => 33
  | .Mod => 34
  | .Case => 35
  | .If => 36
  | .Coalesce => 37
  | .IfNull => 38
  | .IsNull => 39
  | .NullIf => 40
  | .JsonSet => 41
  | .JsonInsert => 42
  | .JsonReplace => 43
  | .JsonUnquote => 44
  | .JsonExtract => 45
  | .JsonType => 46
  | .JsonMerge => 47
  | .JsonObject => 48
  | .JsonArray => 49
  | .JsonRemove => 50
  | .ScalarFunc => 51
  | .Other code => code + 52

/-- The inverse of `ExprType.toCode`. -/
def ExprType.ofCode : Nat → ExprType
  | 0 => .Null
  | 1 => .Int64
  | 2 => .Uint64
  | 3 => .Float32
  | 4 => .Float64
  | 5 => .String
  | 6 => .Bytes
  | 7 => .MysqlBit
  | 8 => .MysqlDecimal
  | 9 => .MysqlDuration
  | 10 => .MysqlEnum
  | 11 => .MysqlHex
  | 12 => .MysqlSet
  | 13 => .MysqlTime
  | 14 => .MysqlJson
  | 15 => .ValueList
  | 16 => .ColumnRef
  | 17 => .LT
  | 18 => .LE
  | 19 => .EQ
  | 20 => .NE
  | 21 => .GE
  | 22 => .GT
  | 23 => .NullEQ
  | 24 => .And
  | 25 => .Or
  | 26 => .Not
  | 27 => .Like
  | 28 => .In
  | 29 => .Plus
  | 30 => .Div
  | 31 => .Minus
  | 32 => .Mul
  | 33 => .IntDiv
  | 34 => .Mod
  | 35 => .Case
  | 36 => .If
  | 37 => .Coalesce
  | 38 => .IfNull
  | 39 => .IsNull
  | 40 => .NullIf
  | 41 => .JsonSet
  | 42 => .JsonInsert
  | 43 => .JsonReplace
  | 44 => .JsonUnquote
  | 45 => .JsonExtract
  | 46 => .JsonType
  | 47 => .JsonMerge
  | 48 => .JsonObject
  | 49 => .JsonArray
  | 50 => .JsonRemove
  | 51 => .ScalarFunc
  | code + 52 => .Other code

theorem ExprType.ofCode_toCode : ∀ a : ExprType, ofCode (toCode a) = a := by
  intro a
  cases a <;> rfl

theorem ExprType.toCode_inj {a b : ExprType} (h : toCode a = toCode b) :
    a = b := by
  have h2 := congrArg ExprType.ofCode h
  rwa [ofCode_toCode, ofCode_toCode] at h2

instance : DecidableEq ExprType := fun a b =>
  decidable_of_iff (ExprType.toCode a = ExprType.toCode b)
    ⟨ExprType.toCode_inj, fun h => h ▸ rfl⟩

/-- Modelled from the spec: the `tipb::ScalarFuncSig` values; `Other`
stands for every signature the evaluator does not support. -/
inductive ScalarFuncSig where
  | AbsInt
  | AbsReal
  | CeilReal
  | Other (code : Nat)
  deriving DecidableEq

/-- Modelled from the spec: the literal payload (`expr.get_val()`) carries
a compact binary encoding per type; the model stores the decoded content
and a decoder fails when the payload kind does not match (malformed
bytes). -/
inductive Payload where
  | none
  | int (i : Int)
  | uint (u : Nat)
  | flt (f : Rat)
  | dec (q : Rat)
  | bytes (b : List Nat)
  | datums (l : List Datum)
  deriving DecidableEq

def Payload.decode_i64 : Payload → Except Err Int
  | .int i => .ok i
  | _ => .error (.box "decode error")

def Payload.decode_u64 : Payload → Except Err Nat
  | .uint u => .ok u
  | _ => .error (.box "decode error")

def Payload.decode_f64 : Payload → Except Err Rat
  | .flt f => .ok f
  | _ => .error (.box "decode error")

def Payload.decode_decimal : Payload → Except Err Rat
  | .dec q => .ok q
  | _ => .error (.box "decode error")

/-- `decode()` of a value-list payload into a Datum sequence. -/
def Payload.decode : Payload → Except Err (List Datum)
  | .datums l => .ok l
  | _ => .error (.box "decode error")

/-- The raw bytes of a payload (`expr.get_val().to_vec()`). -/
def Payload.rawBytes : Payload → List Nat
  | .bytes b => b
  | _ => []

/-- Modelled from the spec: the protobuf expression node (`tipb::Expr`): a
tag, a literal payload, children, the scalar-function signature and the
`field_type` fields (`tp`, `decimal`) used when decoding MysqlTime. -/
inductive Expr where
  | mk (tp : ExprType) (val : Payload) (children : List Expr)
      (sig : ScalarFuncSig) (ftTp : Nat) (ftDec : Int)

def Expr.get_tp : Expr → ExprType
  | .mk t _ _ _ _ _ => t

def Expr.get_val : Expr → Payload
  | .mk _ v _ _ _ _ => v

def Expr.get_children : Expr → List Expr
  | .mk _ _ c _ _ _ => c

def Expr.get_sig : Expr → ScalarFuncSig
  | .mk _ _ _ s _ _ => s

/-- `expr.get_field_type().get_tp()`. -/
def Expr.ftGetTp : Expr → Nat
  | .mk _ _ _ _ t _ => t

/-- `expr.get_field_type().get_decimal()`. -/
def Expr.ftGetDecimal : Expr → Int
  | .mk _ _ _ _ _ d => d

/-- `self.row.get(&i)` on the model of the row map. -/
def rowGet : List (Int × Datum) → Int → Option Datum
  | [], _ => Option.none
  | (k, v) :: r, i => if k = i then some v else rowGet r i

/-- `Option<bool> -> Datum` (`.into()`): `None` is Null, a boolean is
I64 0/1. -/
def datumOfOptBool : Option Bool → Datum
  | Option.none => .Null
  | some b => .I64 (if b then 1 else 0)

/-- `bool -> Datum` (`.into()`). -/
def datumOfBool (b : Bool) : Datum := .I64 (if b then 1 else 0)

/-- `eval_and` (evaluator.rs); callers guarantee neither side is
`Some(false)`. -/
def eval_and (lhs rhs : Option Bool) : Datum :=
  match lhs, rhs with
  | some true, some true => datumOfBool true
  | _, _ => .Null

/-- `eval_or` (evaluator.rs); callers guarantee neither side is
`Some(true)`. -/
def eval_or (lhs rhs : Option Bool) : Datum :=
  match lhs, rhs with
  | some false, some false => datumOfBool false
  | _, _ => .Null

/-- The free `eval_arith` (evaluator.rs): convert both operands to
arithmetic form, coerce them, let Null propagate, then apply the
operation. -/
def eval_arith (ctx : EvalContext) (left right : Datum)
    (f : Datum → EvalContext → Datum → Except Err Datum) :
    Except Err Datum :=
  match left.into_arith ctx with
  | .error e => .error e
  | .ok l =>
    match right.into_arith ctx with
    | .error e => .error e
    | .ok r =>
      match Datum.coerce l r with
      | .error e => .error e
      | .ok (l, r) =>
        if l = .Null ∨ r = .Null then .ok .Null
        else f l ctx r

/-- `cmp_children` plus the truth-value lifting shared by the six
comparison operators (evaluator.rs): Null operands give Null, otherwise
the ordering is mapped through `f` into I64 0/1. -/
def finishCmp (ctx : EvalContext) (res : Except Err (Datum × Datum))
    (f : Ordering → Bool) : Except Err Datum :=
  match res with
  | .error e => .error e
  | .ok (l, r) =>
    if l = .Null ∨ r = .Null then .ok .Null
    else
      match l.cmp ctx r with
      | .error e => .error e
      | .ok o => .ok (datumOfBool (f o))

/-- The loop of Rust `slice::binary_search_by` as used by `check_in`
(evaluator.rs): `base = if cmp == Greater { base } else { mid }`,
`size -= half`; a failing comparison records the error and pretends
`Less`.  `fuel` bounds the loop and any fuel at or above `size`
suffices. -/
def bsGo (probe : Nat → Except Err Ordering) :
    Nat → Nat → Nat → Option Err → Nat × Option Err
  | 0, base, _, err => (base, err)
  | fuel + 1, base, size, err =>
    if size ≤ 1 then (base, err)
    else
      let half := size / 2
      let mid := base + half
      match probe mid with
      | .ok o => bsGo probe fuel (if o = .gt then base else mid) (size - half) err
      | .error e => bsGo probe fuel mid (size - half) (some e)

/-- Rust `slice::binary_search_by` over index probes, together with the
error capture of `check_in`'s closure; returns `Ok(pos)`/`Err(insertion)`
and the recorded comparison error, if any. -/
def binary_search_by (probe : Nat → Except Err Ordering) (n : Nat) :
    Except Nat Nat × Option Err :=
  if n = 0 then (.error 0, Option.none)
  else
    match bsGo probe n 0 n Option.none with
    | (base, err) =>
      match probe base with
      | .ok .eq => (.ok base, err)
      | .ok .lt => (.error (base + 1), err)
      | .ok .gt => (.error base, err)
      | .error e => (.error (base + 1), some e)

/-- `check_in` (evaluator.rs): binary-search `target` in `value_list` with
the coerced comparator; a comparison error anywhere aborts, otherwise the
result is whether the search succeeded. -/
def check_in (ctx : EvalContext) (target : Datum)
    (value_list : List Datum) : Except Err Bool :=
  match binary_search_by
      (fun i => (value_list.getD i .Null).cmp ctx target)
      value_list.length with
  | (_, some e) => .error e
  | (.ok _, Option.none) => .ok true
  | (.error _, Option.none) => .ok false

/-- The Null test of `eval_json_modify` (evaluator.rs): the json operand
(1-based index 1) or any path operand (even 1-based index) being Null
forces a Null result; value operands may be Null. -/
def jsonModifyNullCheck (ds : List Datum) : Bool :=
  (List.range ds.length).any
    (fun i => ds.getD i .Null == .Null && (i == 0 || is_even (i + 1)))

/-- Split the alternating `path, value, …` tail of `eval_json_modify` into
key paths and json values. -/
def kvSplit : List Datum → Except Err (List (List Nat) × List Json)
  | [] => .ok ([], [])
  | [_] => .error (.expr "expect odd number of operands")
  | k :: v :: r =>
    match k.to_json_path_expr with
    | .error e => .error e
    | .ok kp =>
      match v.into_json with
      | .error e => .error e
      | .ok vj =>
        match kvSplit r with
        | .error e => .error e
        | .ok (ks, vs) => .ok (kp :: ks, vj :: vs)

/-- Collect `to_json_path_expr` over the path operands. -/
def pathsOf : List Datum → Except Err (List (List Nat))
  | [] => .ok []
  | d :: r =>
    match d.to_json_path_expr with
    | .error e => .error e
    | .ok p =>
      match pathsOf r with
      | .error e => .error e
      | .ok ps => .ok (p :: ps)

/-- The merge loop of `eval_json_merge` (evaluator.rs). -/
def mergeFold (j : Json) : List Datum → Except Err Datum
  | [] => .ok (.Json j)
  | d :: r =>
    match d.cast_as_json with
    | .error e => .error e
    | .ok j2 => mergeFold (j.merge j2) r

/-- `eval_json_modify` (evaluator.rs) after its children are evaluated:
odd arity, the Null rule, then pairwise modify. -/
def jsonModifyOn (ds : List Datum) (mt : ModifyType) : Except Err Datum :=
  if is_even ds.length then .error (.expr "expect odd number of operands")
  else if jsonModifyNullCheck ds then .ok .Null
  else
    match ds with
    | base :: rest =>
      match base.cast_as_json with
      | .error e => .error e
      | .ok j =>
        match kvSplit rest with
        | .error e => .error e
        | .ok (keys, values) =>
          match j.modify keys values mt with
          | .error e => .error e
          | .ok j2 => .ok (.Json j2)
    | [] => .error (.expr "expect more operands")

/-- `eval_json_remove` (evaluator.rs) after its children are evaluated. -/
def jsonRemoveOn (ds : List Datum) : Except Err Datum :=
  if ds.any (fun d => d == .Null) then .ok .Null
  else
    match ds with
    | base :: rest =>
      match base.cast_as_json with
      | .error e => .error e
      | .ok j =>
        match pathsOf rest with
        | .error e => .error e
        | .ok ps =>
          match j.remove ps with
          | .error e => .error e
          | .ok j2 => .ok (.Json j2)
    | [] => .error (.expr "expect more operands")

/-- `eval_json_extract` (evaluator.rs) after its children are evaluated. -/
def jsonExtractOn (ds : List Datum) : Except Err Datum :=
  if ds.any (fun d => d == .Null) then .ok .Null
  else
    match ds with
    | base :: rest =>
      match base.cast_as_json with
      | .error e => .error e
      | .ok j =>
        match pathsOf rest with
        | .error e => .error e
        | .ok ps =>
          match j.extract ps with
          | some data => .ok (.Json data)
          | Option.none => .ok .Null
    | [] => .error (.expr "expect more operands")

/-- `eval_json_merge` (evaluator.rs) after its children are evaluated. -/
def jsonMergeOn (ds : List Datum) : Except Err Datum :=
  if ds.any (fun d => d == .Null) then .ok .Null
  else
    match ds with
    | base :: rest =>
      match base.cast_as_json with
      | .error e => .error e
      | .ok j => mergeFold j rest
    | [] => .error (.expr "expect more operands")

/-- Modelled from the spec: `abs_int` on its evaluated operand: Null stays
Null, `|i64::MIN|` overflows, unsigned values pass through. -/
def abs_int_on : Datum → Except Err Datum
  | .Null => .ok .Null
  | .I64 i =>
    if i = -9223372036854775808 then .error (.eval "overflow")
    else .ok (.I64 ((i.natAbs : Int)))
  | .U64 u => .ok (.U64 u)
  | _ => .error (.eval "invalid operand")

/-- Modelled from the spec: `abs_real` on its evaluated operand. -/
def abs_real_on : Datum → Except Err Datum
  | .Null => .ok .Null
  | .F64 f => .ok (.F64 |f|)
  | _ => .error (.eval "invalid operand")

/-- Modelled from the spec: `ceil_real` on its evaluated operand. -/
def ceil_real_on : Datum → Except Err Datum
  | .Null => .ok .Null
  | .F64 f => .ok (.F64 ((f.ceil : Int) : Rat))
  | _ => .error (.eval "invalid operand")

mutual

/-- `Evaluator::eval` (evaluator.rs): dispatch on the expression tag; the
tags with no arm fall to the final `_ => Ok(Datum::Null)`. -/
def eval (ctx : EvalContext) (row : List (Int × Datum)) :
    Expr → Except Err Datum
  | .mk tp val children sig ftTp ftDec =>
    match tp with
    | .Int64 =>
      match val.decode_i64 with
      | .error e => .error e
      | .ok i => .ok (.I64 i)
    | .Uint64 =>
      match val.decode_u64 with
      | .error e => .error e
      | .ok u => .ok (.U64 u)
    | .String => .ok (.Bytes val.rawBytes)
    | .Bytes => .ok (.Bytes val.rawBytes)
    | .ColumnRef =>
      match val.decode_i64 with
      | .error e => .error e
      | .ok i =>
        match rowGet row i with
        | some d => .ok d
        | Option.none => .error (.eval "column not found")
    | .LT => finishCmp ctx (evalTwo ctx row children) (fun o => o == .lt)
    | .LE => finishCmp ctx (evalTwo ctx row children) (fun o => o != .gt)
    | .EQ => finishCmp ctx (evalTwo ctx row children) (fun o => o == .eq)
    | .NE => finishCmp ctx (evalTwo ctx row children) (fun o => o != .eq)
    | .GE => finishCmp ctx (evalTwo ctx row children) (fun o => o != .lt)
    | .GT => finishCmp ctx (evalTwo ctx row children) (fun o => o == .gt)
    | .NullEQ =>
      match evalTwo ctx row children with
      | .error e => .error e
      | .ok (l, r) =>
        match l.cmp ctx r with
        | .error e => .error e
        | .ok o => .ok (datumOfBool (o == .eq))
    | .And => evalLogic ctx row children (some false) eval_and
    | .Or => evalLogic ctx row children (some true) eval_or
    | .Not =>
      match children with
      | [c] =>
        match eval ctx row c with
        | .error e => .error e
        | .ok d =>
          if d = .Null then .ok .Null
          else
            match d.into_bool ctx with
            | .error e => .error e
            | .ok b => .ok (datumOfOptBool (b.map (fun v => !v)))
      | _ => .error (.expr "expect 1 operand")
    | .Like =>
      match evalTwo ctx row children with
      | .error e => .error e
      | .ok (target, pattern) =>
        if target = .Null ∨ pattern = .Null then .ok .Null
        else
          match target.into_string with
          | .error e => .error e
          | .ok ts0 =>
            match pattern.into_string with
            | .error e => .error e
            | .ok ps0 =>
              let lower := ps0.any (fun c => isAsciiAlpha c)
              let ts := if lower then bytesLower ts0 else ts0
              let ps := if lower then bytesLower ps0 else ps0
              match ps with
              | 37 :: rest =>
                if endsWithB rest [37] then
                  .ok (datumOfBool (containsB ts rest.dropLast))
                else .ok (datumOfBool (endsWithB ts rest))
              | _ =>
                if endsWithB ps [37] then
                  .ok (datumOfBool (startsWithB ts ps.dropLast))
                else .ok (datumOfBool (ts == ps))
    | .Float32 =>
      match val.decode_f64 with
      | .error e => .error e
      | .ok f => .ok (.F64 f)
    | .Float64 =>
      match val.decode_f64 with
      | .error e => .error e
      | .ok f => .ok (.F64 f)
    | .MysqlDuration =>
      match val.decode_i64 with
      | .error e => .error e
      | .ok n =>
        match durationFromNanos n MAX_FSP with
        | .error e => .error e
        | .ok (nn, f) => .ok (.Dur nn f)
    | .MysqlDecimal =>
      match val.decode_decimal with
      | .error e => .error e
      | .ok q => .ok (.Dec q)
    | .MysqlTime =>
      match val.decode_u64 with
      | .error e => .error e
      | .ok u =>
        match Time.from_packed_u64 u ftTp ftDec ctx.tz with
        | .error e => .error e
        | .ok t => .ok (.Time t)
    | .In =>
      match children with
      | [c0, c1] =>
        match eval ctx row c0 with
        | .error e => .error e
        | .ok target =>
          if target = .Null then .ok .Null
          else if c1.get_tp ≠ .ValueList then
            .error (.expr "the second child should be of the value list type")
          else
            match c1.get_val.decode with
            | .error e => .error e
            | .ok decoded =>
              match check_in ctx target decoded with
              | .error e => .error e
              | .ok true => .ok (datumOfBool true)
              | .ok false =>
                match decoded with
                | .Null :: _ => .ok .Null
                | _ => .ok (datumOfBool false)
      | _ => .error (.expr "IN need 2 operands")
    | .Plus =>
      match evalTwo ctx row children with
      | .error e => .error e
      | .ok (l, r) => eval_arith ctx l r Datum.checked_add
    | .Div =>
      match evalTwo ctx row children with
      | .error e => .error e
      | .ok (l, r) => eval_arith ctx l r Datum.checked_div
    | .Minus =>
      match evalTwo ctx row children with
      | .error e => .error e
      | .ok (l, r) => eval_arith ctx l r Datum.checked_minus
    | .Mul =>
      match evalTwo ctx row children with
      | .error e => .error e
      | .ok (l, r) => eval_arith ctx l r Datum.checked_mul
    | .IntDiv =>
      match evalTwo ctx row children with
      | .error e => .error e
      | .ok (l, r) => eval_arith ctx l r Datum.checked_int_div
    | .Mod =>
      match evalTwo ctx row children with
      | .error e => .error e
      | .ok (l, r) => eval_arith ctx l r Datum.checked_rem
    | .Case => evalCaseWhen ctx row children
    | .If =>
      match children with
      | [c, a, b] =>
        match eval ctx row c with
        | .error e => .error e
        | .ok cond =>
          match cond.into_bool ctx with
          | .error e => .error e
          | .ok (some true) => eval ctx row a
          | .ok _ => eval ctx row b
      | _ => .error (.expr "expect 3 operands")
    | .Coalesce => evalCoalesce ctx row children
    | .IfNull =>
      match children with
      | [a, b] =>
        match eval ctx row a with
        | .error e => .error e
        | .ok l => if l = .Null then eval ctx row b else .ok l
      | _ => .error (.expr "expect 2 operands")
    | .IsNull =>
      match children with
      | [c] =>
        match eval ctx row c with
        | .error e => .error e
        | .ok d => .ok (datumOfBool (d == .Null))
      | _ => .error (.expr "expect 1 operand")
    | .NullIf =>
      match evalTwo ctx row children with
      | .error e => .error e
      | .ok (l, r) =>
        if l = .Null ∨ r = .Null then .ok l
        else
          match l.cmp ctx r with
          | .error e => .error e
          | .ok .eq => .ok .Null
          | .ok _ => .ok l
    | .JsonSet =>
      if children.length < 2 then .error (.expr "expect more operands")
      else
        match evalList ctx row children with
        | .error e => .error e
        | .ok ds => jsonModifyOn ds .Set
    | .JsonInsert =>
      if children.length < 2 then .error (.expr "expect more operands")
      else
        match evalList ctx row children with
        | .error e => .error e
        | .ok ds => jsonModifyOn ds .Insert
    | .JsonReplace =>
      if children.length < 2 then .error (.expr "expect more operands")
      else
        match evalList ctx row children with
        | .error e => .error e
        | .ok ds => jsonModifyOn ds .Replace
    | .JsonUnquote =>
      match children with
      | [c] =>
        match eval ctx row c with
        | .error e => .error e
        | .ok child =>
          if child = .Null then .ok .Null
          else
            match child.into_json with
            | .error e => .error e
            | .ok j =>
              match j.unquote with
              | .error e => .error e
              | .ok s => .ok (.Bytes s)
      | _ => .error (.expr "expect 1 operand")
    | .JsonExtract =>
      if children.length < 2 then .error (.expr "expect more operands")
      else
        match evalList ctx row children with
        | .error e => .error e
        | .ok ds => jsonExtractOn ds
    | .JsonType =>
      match children with
      | [c] =>
        match eval ctx row c with
        | .error e => .error e
        | .ok child =>
          if child = .Null then .ok .Null
          else
            match child.cast_as_json with
            | .error e => .error e
            | .ok j => .ok (.Bytes j.json_type)
      | _ => .error (.expr "expect 1 operand")
    | .JsonMerge =>
      if children.length < 2 then .error (.expr "expect more operands")
      else
        match evalList ctx row children with
        | .error e => .error e
        | .ok ds => jsonMergeOn ds
    | .JsonObject =>
      match evalList ctx row children with
      | .error e => .error e
      | .ok ds =>
        match json_object ds with
        | .error e => .error e
        | .ok j => .ok (.Json j)
    | .JsonArray =>
      match evalList ctx row children with
      | .error e => .error e
      | .ok ds =>
        match json_array ds with
        | .error e => .error e
        | .ok j => .ok (.Json j)
    | .JsonRemove =>
      if children.length < 2 then .error (.expr "expect more operands")
      else
        match evalList ctx row children with
        | .error e => .error e
        | .ok ds => jsonRemoveOn ds
    | .ScalarFunc =>
      match sig with
      | .AbsInt =>
        match children with
        | [c] =>
          match eval ctx row c with
          | .error e => .error e
          | .ok d => abs_int_on d
        | _ => .error (.expr "expect 1 operand")
      | .AbsReal =>
        match children with
        | [c] =>
          match eval ctx row c with
          | .error e => .error e
          | .ok d => abs_real_on d
        | _ => .error (.expr "expect 1 operand")
      | .CeilReal =>
        match children with
        | [c] =>
          match eval ctx row c with
          | .error e => .error e
          | .ok d => ceil_real_on d
        | _ => .error (.expr "expect 1 operand")
      | .Other _ => .error (.expr "unsupported scalar function")
    | _ => .ok .Null

/-- `eval_two_children` (evaluator.rs). -/
def evalTwo (ctx : EvalContext) (row : List (Int × Datum)) :
    List Expr → Except Err (Datum × Datum)
  | [l, r] =>
    match eval ctx row l with
    | .error e => .error e
    | .ok dl =>
      match eval ctx row r with
      | .error e => .error e
      | .ok dr => .ok (dl, dr)
  | _ => .error (.expr "need 2 operands")

/-- `eval_logic` (evaluator.rs): left operand first; stop and return as
soon as a boolean coercion equals the break value. -/
def evalLogic (ctx : EvalContext) (row : List (Int × Datum))
    (children : List Expr) (breakRes : Option Bool)
    (logicFunc : Option Bool → Option Bool → Datum) : Except Err Datum :=
  match children with
  | [le, re] =>
    match eval ctx row le with
    | .error e => .error e
    | .ok ld =>
      match ld.into_bool ctx with
      | .error e => .error e
      | .ok left =>
        if left = breakRes then .ok (datumOfOptBool left)
        else
          match eval ctx row re with
          | .error e => .error e
          | .ok rd =>
            match rd.into_bool ctx with
            | .error e => .error e
            | .ok right =>
              if right = breakRes then .ok (datumOfOptBool right)
              else .ok (logicFunc left right)
  | _ => .error (.expr "need 2 operands")

/-- `eval_more_children`'s collection step (evaluator.rs): evaluate every
child, stopping at the first error. -/
def evalList (ctx : EvalContext) (row : List (Int × Datum)) :
    List Expr → Except Err (List Datum)
  | [] => .ok []
  | e :: rest =>
    match eval ctx row e with
    | .error er => .error er
    | .ok d =>
      match evalList ctx row rest with
      | .error er => .error er
      | .ok ds => .ok (d :: ds)

/-- `eval_case_when` (evaluator.rs): the chunks-of-two walk; a trailing
single child is the else branch, exhaustion gives Null. -/
def evalCaseWhen (ctx : EvalContext) (row : List (Int × Datum)) :
    List Expr → Except Err Datum
  | [] => .ok .Null
  | [elseE] => eval ctx row elseE
  | w :: t :: rest =>
    match eval ctx row w with
    | .error e => .error e
    | .ok res =>
      match res.into_bool ctx with
      | .error e => .error e
      | .ok b =>
        if b.getD false then eval ctx row t
        else evalCaseWhen ctx row rest

/-- `eval_coalesce` (evaluator.rs): the first non-Null child. -/
def evalCoalesce (ctx : EvalContext) (row : List (Int × Datum)) :
    List Expr → Except Err Datum
  | [] => .ok .Null
  | e :: rest =>
    match eval ctx row e with
    | .error er => .error er
    | .ok .Null => evalCoalesce ctx row rest
    | .ok d => .ok d

end

/-! ## Claim C9: EvalContext::new -/

/-- **C9.** `EvalContext::new(tz_offset, flags)` errors exactly for
offsets outside the open interval `(-86400, 86400)` (so ±86399 are
accepted and ±86400 rejected); on success the context keeps the offset,
`ignore_truncate` is set iff bit 1 of `flags` is set (`flags % 2 = 1`)
and `truncate_as_warning` iff bit 2 is set (`flags / 2 % 2 = 1`). -/
theorem c9_eval_context (tz_offset : Int) (flags : Nat) :
    (-86400 < tz_offset ∧ tz_offset < 86400 →
      ∃ c, EvalContext.new tz_offset flags = .ok c ∧ c.tz = tz_offset ∧
        (c.ignore_truncate = true ↔ flags % 2 = 1) ∧
        (c.truncate_as_warning = true ↔ flags / 2 % 2 = 1)) ∧
    (tz_offset ≤ -86400 ∨ 86400 ≤ tz_offset →
      EvalContext.new tz_offset flags = .error (.eval "invalid tz offset"))
    := by
  constructor
  · rintro ⟨h1, h2⟩
    refine ⟨⟨tz_offset, decide (0 < flags &&& FLAG_IGNORE_TRUNCATE),
            decide (0 < flags &&& FLAG_TRUNCATE_AS_WARNING)⟩, ?_, rfl, ?_, ?_⟩
    · simp only [EvalContext.new, east_opt]
      rw [if_neg (by simp only [ONE_DAY]; omega), if_pos ⟨h1, h2⟩]
    · simp only [FLAG_IGNORE_TRUNCATE, decide_eq_true_eq, Nat.and_one_is_mod]
      omega
    · have key : flags &&& FLAG_TRUNCATE_AS_WARNING =
          (decide (flags / 2 % 2 = 1)).toNat * 2 := by
        have h1 := Nat.and_two_pow flags 1
        rw [Nat.testBit_to_div_mod] at h1
        simpa [FLAG_TRUNCATE_AS_WARNING] using h1
      rw [key]
      by_cases hb : flags / 2 % 2 = 1 <;> simp [hb]
  · intro h
    simp only [EvalContext.new]
    rw [if_pos (by simp only [ONE_DAY]; omega)]

/-- Witness for C9: offsets ±86399 are accepted with the flag bits of
`flags = 0` and `flags = 3` decoded, and offsets ±86400 are rejected. -/
theorem c9_eval_context_witness :
    (∃ c, EvalContext.new 86399 0 = .ok c ∧ c.tz = 86399 ∧
        (c.ignore_truncate = true ↔ (0 : Nat) % 2 = 1) ∧
        (c.truncate_as_warning = true ↔ (0 : Nat) / 2 % 2 = 1)) ∧
    (∃ c, EvalContext.new (-86399) 3 = .ok c ∧ c.tz = -86399 ∧
        (c.ignore_truncate = true ↔ (3 : Nat) % 2 = 1) ∧
        (c.truncate_as_warning = true ↔ (3 : Nat) / 2 % 2 = 1)) ∧
    EvalContext.new 86400 0 = .error (.eval "invalid tz offset") ∧
    EvalContext.new (-86400) 0 = .error (.eval "invalid tz offset") :=
  ⟨(c9_eval_context 86399 0).1 (by decide),
   (c9_eval_context (-86399) 3).1 (by decide),
   (c9_eval_context 86400 0).2 (by decide),
   (c9_eval_context (-86400) 0).2 (by decide)⟩

/-! ## Claim C10: the default arm of eval -/

set_option maxHeartbeats 1000000 in
/-- **C10.** An expression whose tag is not explicitly handled by
`Evaluator::eval` — `Null`, `MysqlBit`, `MysqlEnum`, `MysqlHex`,
`MysqlSet`, `MysqlJson`, `ValueList`, or any tag beyond the handled set —
evaluates to `Ok(Datum::Null)` whatever its payload and children; a
`ScalarFunc` node whose signature is not AbsInt/AbsReal/CeilReal is the
one unsupported construct that errors instead. -/
theorem c10_default_null (ctx : EvalContext) (row : List (Int × Datum))
    (e : Expr)
    (h : e.get_tp = .Null ∨ e.get_tp = .MysqlBit ∨ e.get_tp = .MysqlEnum ∨
        e.get_tp = .MysqlHex ∨ e.get_tp = .MysqlSet ∨ e.get_tp = .MysqlJson ∨
        e.get_tp = .ValueList ∨ (∃ n, e.get_tp = .Other n)) :
    eval ctx row e = .ok .Null ∧
    (∀ (v : Payload) (c : List Expr) (n ft : Nat) (fd : Int),
      eval ctx row (.mk .ScalarFunc v c (.Other n) ft fd) =
        .error (.expr "unsupported scalar function")) := by
  constructor
  · obtain ⟨tp, val, children, sig, ftTp, ftDec⟩ := e
    simp only [Expr.get_tp] at h
    rcases h with h | h | h | h | h | h | h | ⟨n, h⟩ <;> subst h <;>
      rw [eval.eq_def]
  · intro v c n ft fd
    rw [eval.eq_def]

/-! ## Claim C3: short-circuit AND/OR -/

/-- An `And` node dispatches to `eval_logic` with break value
`Some(false)` and combiner `eval_and`. -/
theorem eval_and_node (ctx : EvalContext) (row : List (Int × Datum))
    (v : Payload) (l r : Expr) (sg : ScalarFuncSig) (ft : Nat) (fd : Int) :
    eval ctx row (.mk .And v [l, r] sg ft fd) =
      evalLogic ctx row [l, r] (some false) eval_and := by
  rw [eval.eq_def]

/-- An `Or` node dispatches to `eval_logic` with break value `Some(true)`
and combiner `eval_or`. -/
theorem eval_or_node (ctx : EvalContext) (row : List (Int × Datum))
    (v : Payload) (l r : Expr) (sg : ScalarFuncSig) (ft : Nat) (fd : Int) :
    eval ctx row (.mk .Or v [l, r] sg ft fd) =
      evalLogic ctx row [l, r] (some true) eval_or := by
  rw [eval.eq_def]

/-- One unfolding step of `eval_logic` once the left child's value and
boolean coercion are known. -/
theorem evalLogic_step (ctx : EvalContext) (row : List (Int × Datum))
    (l : Expr) (dl : Datum) (lb : Option Bool)
    (hl : eval ctx row l = .ok dl) (hlb : dl.into_bool ctx = .ok lb)
    (re : Expr) (br : Option Bool)
    (f : Option Bool → Option Bool → Datum) :
    evalLogic ctx row [l, re] br f =
      if lb = br then .ok (datumOfOptBool lb)
      else
        match eval ctx row re with
        | .error e => .error e
        | .ok rd =>
          match rd.into_bool ctx with
          | .error e => .error e
          | .ok rb =>
            if rb = br then .ok (datumOfOptBool rb) else .ok (f lb rb) := by
  rw [evalLogic.eq_def]
  dsimp only
  rw [hl]
  dsimp only
  rw [hlb]

/-- **C3.** For a two-child AND/OR the left child is evaluated first: if
its boolean coercion equals the break value (false for AND, true for OR)
the result is that left value for EVERY right child (which is therefore
never evaluated); AND yields I64 0 whenever either side coerces to false
even when the other side is Null, OR yields I64 1 whenever either side
coerces to true even when the other side is Null; and when no side hits
the break value a Null operand makes the result Null. -/
theorem c3_logic_short_circuit (ctx : EvalContext) (row : List (Int × Datum))
    (v : Payload) (sg : ScalarFuncSig) (ft : Nat) (fd : Int)
    (l : Expr) (dl : Datum) (lb : Option Bool)
    (hl : eval ctx row l = .ok dl) (hlb : dl.into_bool ctx = .ok lb) :
    (lb = some false → ∀ r : Expr,
      eval ctx row (.mk .And v [l, r] sg ft fd) = .ok (.I64 0)) ∧
    (lb = some true → ∀ r : Expr,
      eval ctx row (.mk .Or v [l, r] sg ft fd) = .ok (.I64 1)) ∧
    (∀ (r : Expr) (dr : Datum) (rb : Option Bool),
      eval ctx row r = .ok dr → dr.into_bool ctx = .ok rb →
      ((lb = some false ∨ rb = some false →
          eval ctx row (.mk .And v [l, r] sg ft fd) = .ok (.I64 0)) ∧
       (lb = some true ∨ rb = some true →
          eval ctx row (.mk .Or v [l, r] sg ft fd) = .ok (.I64 1)) ∧
       (lb ≠ some false → rb ≠ some false →
        lb = Option.none ∨ rb = Option.none →
          eval ctx row (.mk .And v [l, r] sg ft fd) = .ok .Null) ∧
       (lb ≠ some true → rb ≠ some true →
        lb = Option.none ∨ rb = Option.none →
          eval ctx row (.mk .Or v [l, r] sg ft fd) = .ok .Null))) := by
  refine ⟨?_, ?_, ?_⟩
  · intro hlf r
    subst hlf
    rw [eval_and_node ctx row v l r sg ft fd,
        evalLogic_step ctx row l dl (some false) hl hlb r (some false) eval_and,
        if_pos rfl]
    rfl
  · intro hlt r
    subst hlt
    rw [eval_or_node ctx row v l r sg ft fd,
        evalLogic_step ctx row l dl (some true) hl hlb r (some true) eval_or,
        if_pos rfl]
    rfl
  · intro r dr rb hr hrb
    refine ⟨?_, ?_, ?_, ?_⟩
    · rintro (hlf | hrf)
      · subst hlf
        rw [eval_and_node ctx row v l r sg ft fd,
            evalLogic_step ctx row l dl (some false) hl hlb r (some false)
              eval_and, if_pos rfl]
        rfl
      · by_cases hlf : lb = some false
        · subst hlf
          rw [eval_and_node ctx row v l r sg ft fd,
              evalLogic_step ctx row l dl (some false) hl hlb r (some false)
                eval_and, if_pos rfl]
          rfl
        · subst hrf
          rw [eval_and_node ctx row v l r sg ft fd,
              evalLogic_step ctx row l dl lb hl hlb r (some false) eval_and,
              if_neg hlf, hr]
          dsimp only
          rw [hrb]
          rfl
    · rintro (hlt | hrt)
      · subst hlt
        rw [eval_or_node ctx row v l r sg ft fd,
            evalLogic_step ctx row l dl (some true) hl hlb r (some true)
              eval_or, if_pos rfl]
        rfl
      · by_cases hlt : lb = some true
        · subst hlt
          rw [eval_or_node ctx row v l r sg ft fd,
              evalLogic_step ctx row l dl (some true) hl hlb r (some true)
                eval_or, if_pos rfl]
          rfl
        · subst hrt
          rw [eval_or_node ctx row v l r sg ft fd,
              evalLogic_step ctx row l dl lb hl hlb r (some true) eval_or,
              if_neg hlt, hr]
          dsimp only
          rw [hrb]
          rfl
    · intro hlf hrf hnone
      rw [eval_and_node ctx row v l r sg ft fd,
          evalLogic_step ctx row l dl lb hl hlb r (some false) eval_and,
          if_neg hlf, hr]
      dsimp only
      rw [hrb]
      dsimp only
      rw [if_neg hrf]
      rcases hnone with h | h <;> subst h
      · cases rb with
        | none => rfl
        | some b => cases b <;> rfl
      · cases lb with
        | none => rfl
        | some b => cases b <;> rfl
    · intro hlt hrt hnone
      rw [eval_or_node ctx row v l r sg ft fd,
          evalLogic_step ctx row l dl lb hl hlb r (some true) eval_or,
          if_neg hlt, hr]
      dsimp only
      rw [hrb]
      dsimp only
      rw [if_neg hrt]
      rcases hnone with h | h <;> subst h
      · cases rb with
        | none => rfl
        | some b => cases b <;> rfl
      · cases lb with
        | none => rfl
        | some b => cases b <;> rfl

/-- Witness for C3: `AND(I64 0, Null)` short-circuits to I64 0 and
`OR(I64 0, Null)` is Null. -/
theorem c3_logic_short_circuit_witness :
    eval ⟨0, false, false⟩ [] (.mk .And .none
      [.mk .Int64 (.int 0) [] (.Other 0) 0 0,
       .mk .Null .none [] (.Other 0) 0 0] (.Other 0) 0 0) = .ok (.I64 0) ∧
    eval ⟨0, false, false⟩ [] (.mk .Or .none
      [.mk .Int64 (.int 0) [] (.Other 0) 0 0,
       .mk .Null .none [] (.Other 0) 0 0] (.Other 0) 0 0) = .ok .Null := by
  have hl : eval ⟨0, false, false⟩ []
      (.mk .Int64 (.int 0) [] (.Other 0) 0 0) = .ok (.I64 0) := by
    rw [eval.eq_def]
    rfl
  have hr : eval ⟨0, false, false⟩ []
      (.mk .Null .none [] (.Other 0) 0 0) = .ok .Null := by
    rw [eval.eq_def]
  have H := c3_logic_short_circuit ⟨0, false, false⟩ [] .none (.Other 0) 0 0
      (.mk .Int64 (.int 0) [] (.Other 0) 0 0) (.I64 0) (some false) hl rfl
  exact ⟨H.1 rfl (.mk .Null .none [] (.Other 0) 0 0),
    (H.2.2 (.mk .Null .none [] (.Other 0) 0 0) .Null Option.none hr rfl).2.2.2
      (by decide) (by decide) (Or.inr rfl)⟩

/-! ## Claim C4: division and modulo by zero -/

/-- `eval_two_children` on known child values. -/
theorem evalTwo_eq (ctx : EvalContext) (row : List (Int × Datum))
    (a b : Expr) (da db : Datum)
    (ha : eval ctx row a = .ok da) (hb : eval ctx row b = .ok db) :
    evalTwo ctx row [a, b] = .ok (da, db) := by
  rw [evalTwo.eq_def]
  dsimp only
  rw [ha]
  dsimp only
  rw [hb]

/-- The free `eval_arith` returns Null whenever the applied operation
does, once the conversions are fixed. -/
theorem eval_arith_of (ctx : EvalContext) (da db la ra l r : Datum)
    (f : Datum → EvalContext → Datum → Except Err Datum)
    (hla : da.into_arith ctx = .ok la) (hra : db.into_arith ctx = .ok ra)
    (hco : Datum.coerce la ra = .ok (l, r))
    (hln : l ≠ .Null) (hrn : r ≠ .Null) (hf : f l ctx r = .ok .Null) :
    eval_arith ctx da db f = .ok .Null := by
  unfold eval_arith
  rw [hla]
  dsimp only
  rw [hra]
  dsimp only
  rw [hco]
  dsimp only
  rw [if_neg (not_or.mpr ⟨hln, hrn⟩), hf]

/-- **C4.** A `Div`, `IntDiv` or `Mod` node whose operands are non-Null
after arithmetic conversion and coercion and whose divisor has numeric
value zero evaluates to `Ok(Datum::Null)`, not an error. -/
theorem c4_div_by_zero (ctx : EvalContext) (row : List (Int × Datum))
    (v : Payload) (sg : ScalarFuncSig) (ft : Nat) (fd : Int)
    (a b : Expr) (da db la ra l r : Datum)
    (ha : eval ctx row a = .ok da) (hb : eval ctx row b = .ok db)
    (hla : da.into_arith ctx = .ok la) (hra : db.into_arith ctx = .ok ra)
    (hco : Datum.coerce la ra = .ok (l, r))
    (hln : l ≠ .Null) (hrn : r ≠ .Null) (hz : r.isZeroVal = true) :
    eval ctx row (.mk .Div v [a, b] sg ft fd) = .ok .Null ∧
    eval ctx row (.mk .IntDiv v [a, b] sg ft fd) = .ok .Null ∧
    eval ctx row (.mk .Mod v [a, b] sg ft fd) = .ok .Null := by
  have h2 := evalTwo_eq ctx row a b da db ha hb
  refine ⟨?_, ?_, ?_⟩
  · rw [eval.eq_def]
    dsimp only
    rw [h2]
    dsimp only
    exact eval_arith_of ctx da db la ra l r Datum.checked_div hla hra hco
      hln hrn (by simp only [Datum.checked_div]; rw [if_pos hz])
  · rw [eval.eq_def]
    dsimp only
    rw [h2]
    dsimp only
    exact eval_arith_of ctx da db la ra l r Datum.checked_int_div hla hra hco
      hln hrn (by simp only [Datum.checked_int_div]; rw [if_pos hz])
  · rw [eval.eq_def]
    dsimp only
    rw [h2]
    dsimp only
    exact eval_arith_of ctx da db la ra l r Datum.checked_rem hla hra hco
      hln hrn (by simp only [Datum.checked_rem]; rw [if_pos hz])

/-- Witness for C4: `1 / 0`, `1 DIV 0` and `1 % 0` all yield Null. -/
theorem c4_div_by_zero_witness :
    eval ⟨0, false, false⟩ [] (.mk .Div .none
      [.mk .Int64 (.int 1) [] (.Other 0) 0 0,
       .mk .Int64 (.int 0) [] (.Other 0) 0 0] (.Other 0) 0 0) = .ok .Null ∧
    eval ⟨0, false, false⟩ [] (.mk .IntDiv .none
      [.mk .Int64 (.int 1) [] (.Other 0) 0 0,
       .mk .Int64 (.int 0) [] (.Other 0) 0 0] (.Other 0) 0 0) = .ok .Null ∧
    eval ⟨0, false, false⟩ [] (.mk .Mod .none
      [.mk .Int64 (.int 1) [] (.Other 0) 0 0,
       .mk .Int64 (.int 0) [] (.Other 0) 0 0] (.Other 0) 0 0) = .ok .Null := by
  have ha : eval ⟨0, false, false⟩ []
      (.mk .Int64 (.int 1) [] (.Other 0) 0 0) = .ok (.I64 1) := by
    rw [eval.eq_def]
    rfl
  have hb : eval ⟨0, false, false⟩ []
      (.mk .Int64 (.int 0) [] (.Other 0) 0 0) = .ok (.I64 0) := by
    rw [eval.eq_def]
    rfl
  exact c4_div_by_zero ⟨0, false, false⟩ [] .none (.Other 0) 0 0
    (.mk .Int64 (.int 1) [] (.Other 0) 0 0)
    (.mk .Int64 (.int 0) [] (.Other 0) 0 0)
    (.I64 1) (.I64 0) (.I64 1) (.I64 0) (.I64 1) (.I64 0)
    ha hb rfl rfl rfl (by decide) (by decide) rfl

/-! ## Claim C5: IN over a pre-sorted value list -/

/-- The domain on which the IN binary search is exercised here: Null or a
Datum with a coerced numeric value. -/
def nullOrNumeric (d : Datum) : Prop :=
  d = .Null ∨ (Datum.numVal d).isSome

/-- The comparison realised by `Datum::cmp` on the null-or-numeric domain:
Null sorts below every number, numbers compare on their coerced value. -/
def cmpK (a b : Datum) : Ordering :=
  match Datum.numVal a, Datum.numVal b with
  | Option.none, Option.none => .eq
  | Option.none, some _ => .lt
  | some _, Option.none => .gt
  | some x, some y => qcmp x y

theorem qcmp_lt_iff {x y : Rat} : qcmp x y = .lt ↔ x < y := by
  unfold qcmp
  rcases lt_trichotomy x y with h | h | h
  · rw [if_pos h]; simp [h]
  · subst h; rw [if_neg (lt_irrefl x), if_pos rfl]
    simp [lt_irrefl]
  · rw [if_neg (asymm h), if_neg (ne_of_gt h)]
    constructor
    · intro hc; exact absurd hc (by decide)
    · intro hc; exact absurd (lt_trans h hc) (lt_irrefl y)

theorem qcmp_eq_iff {x y : Rat} : qcmp x y = .eq ↔ x = y := by
  unfold qcmp
  rcases lt_trichotomy x y with h | h | h
  · rw [if_pos h]
    constructor
    · intro hc; exact absurd hc (by decide)
    · intro hc; subst hc; exact absurd h (lt_irrefl x)
  · subst h; rw [if_neg (lt_irrefl x), if_pos rfl]; simp
  · rw [if_neg (asymm h), if_neg (ne_of_gt h)]
    constructor
    · intro hc; exact absurd hc (by decide)
    · intro hc; subst hc; exact absurd h (lt_irrefl x)

theorem qcmp_gt_iff {x y : Rat} : qcmp x y = .gt ↔ y < x := by
  unfold qcmp
  rcases lt_trichotomy x y with h | h | h
  · rw [if_pos h]
    constructor
    · intro hc; exact absurd hc (by decide)
    · intro hc; exact absurd (lt_trans h hc) (lt_irrefl x)
  · subst h; rw [if_neg (lt_irrefl x), if_pos rfl]
    constructor
    · intro hc; exact absurd hc (by decide)
    · intro hc; exact absurd hc (lt_irrefl x)
  · rw [if_neg (asymm h), if_neg (ne_of_gt h)]
    simp [h]

/-- On the null-or-numeric domain `Datum::cmp` never fails and computes
`cmpK`. -/
theorem cmp_dom (ctx : EvalContext) {a b : Datum}
    (ha : nullOrNumeric a) (hb : nullOrNumeric b) :
    Datum.cmp a ctx b = .ok (cmpK a b) := by
  rcases ha with rfl | ha <;> rcases hb with rfl | hb
  · rfl
  · cases b <;> simp_all [Datum.numVal, Datum.cmp, cmpK]
  · cases a <;> simp_all [Datum.numVal, Datum.cmp, cmpK]
  · cases a <;> cases b <;> simp_all [Datum.numVal, Datum.cmp, cmpK]

/-- Monotonicity transport: if `a` sorts no later than `b` and `a`
compares greater than `t`, so does `b`. -/
theorem cmpK_mono_gt {a b t : Datum} (hab : cmpK a b ≠ .gt)
    (hat : cmpK a t = .gt) : cmpK b t = .gt := by
  rcases ha : Datum.numVal a with _ | x <;>
    rcases hb : Datum.numVal b with _ | y <;>
    rcases ht : Datum.numVal t with _ | z <;>
    simp_all [cmpK, qcmp_gt_iff, qcmp_lt_iff, qcmp_eq_iff] <;>
    linarith

/-- Monotonicity transport: if `a` sorts no later than `b` and `b`
compares less than `t`, so does `a`. -/
theorem cmpK_mono_lt {a b t : Datum} (hab : cmpK a b ≠ .gt)
    (hbt : cmpK b t = .lt) : cmpK a t = .lt := by
  rcases ha : Datum.numVal a with _ | x <;>
    rcases hb : Datum.numVal b with _ | y <;>
    rcases ht : Datum.numVal t with _ | z <;>
    simp_all [cmpK, qcmp_gt_iff, qcmp_lt_iff, qcmp_eq_iff] <;>
    linarith

/-- The pure skeleton of the binary-search loop, when no probe errors. -/
def bsPure (p : Nat → Ordering) : Nat → Nat → Nat → Nat
  | 0, base, _ => base
  | fuel + 1, base, size =>
    if size ≤ 1 then base
    else
      bsPure p fuel (if p (base + size / 2) = .gt then base else base + size / 2)
        (size - size / 2)

/-- With an error-free probe, `bsGo` is `bsPure` and records no error. -/
theorem bsGo_pure (probe : Nat → Except Err Ordering) (p : Nat → Ordering)
    (hp : ∀ i, probe i = .ok (p i)) :
    ∀ fuel base size err,
      bsGo probe fuel base size err = (bsPure p fuel base size, err) := by
  intro fuel
  induction fuel with
  | zero => intro base size err; rfl
  | succ m ih =>
    intro base size err
    simp only [bsGo, bsPure]
    by_cases h : size ≤ 1
    · rw [if_pos h, if_pos h]
    · rw [if_neg h, if_neg h, hp (base + size / 2)]
      dsimp only
      exact ih _ _ err

/-- The search result stays inside the current window. -/
theorem bsPure_mem (p : Nat → Ordering) :
    ∀ fuel base size, 0 < size →
      base ≤ bsPure p fuel base size ∧ bsPure p fuel base size < base + size := by
  intro fuel
  induction fuel with
  | zero =>
    intro base size h
    exact ⟨le_refl _, by simp only [bsPure]; omega⟩
  | succ m ih =>
    intro base size hs
    simp only [bsPure]
    by_cases h : size ≤ 1
    · rw [if_pos h]
      exact ⟨le_refl _, by omega⟩
    · rw [if_neg h]
      by_cases hg : p (base + size / 2) = .gt
      · rw [if_pos hg]
        have h2 := ih base (size - size / 2) (by omega)
        exact ⟨h2.1, by omega⟩
      · rw [if_neg hg]
        have h2 := ih (base + size / 2) (size - size / 2) (by omega)
        exact ⟨by omega, by omega⟩

/-- Completeness of the search loop: under probe monotonicity, a window
containing an `eq` index leads the loop to an `eq` index. -/
theorem bsPure_complete (p : Nat → Ordering) (n : Nat)
    (hmg : ∀ i j, i ≤ j → j < n → p i = .gt → p j = .gt)
    (hml : ∀ i j, i ≤ j → j < n → p j = .lt → p i = .lt) :
    ∀ fuel base size, size ≤ fuel → 0 < size → base + size ≤ n →
      (∃ i, base ≤ i ∧ i < base + size ∧ p i = .eq) →
      p (bsPure p fuel base size) = .eq := by
  intro fuel
  induction fuel with
  | zero => intro base size h0 h1 _ _; omega
  | succ m ih =>
    intro base size hsf hs hn hex
    simp only [bsPure]
    by_cases h : size ≤ 1
    · rw [if_pos h]
      obtain ⟨i, hi1, hi2, hieq⟩ := hex
      have hib : i = base := by omega
      exact hib ▸ hieq
    · rw [if_neg h]
      by_cases hg : p (base + size / 2) = .gt
      · rw [if_pos hg]
        apply ih base (size - size / 2) (by omega) (by omega) (by omega)
        obtain ⟨i, hi1, hi2, hieq⟩ := hex
        refine ⟨i, hi1, ?_, hieq⟩
        by_contra hcon
        push_neg at hcon
        have hgi : p i = .gt :=
          hmg (base + size / 2) i (by omega) (by omega) hg
        rw [hgi] at hieq
        exact absurd hieq (by decide)
      · rw [if_neg hg]
        apply ih (base + size / 2) (size - size / 2) (by omega) (by omega)
          (by omega)
        obtain ⟨i, hi1, hi2, hieq⟩ := hex
        by_cases hge : base + size / 2 ≤ i
        · exact ⟨i, hge, by omega, hieq⟩
        · push_neg at hge
          cases hpm : p (base + size / 2) with
          | lt =>
            have : p i = .lt := hml i (base + size / 2) (by omega) (by omega) hpm
            rw [this] at hieq
            exact absurd hieq (by decide)
          | eq => exact ⟨base + size / 2, le_refl _, by omega, hpm⟩
          | gt => exact absurd hpm hg

instance (d : Datum) : Decidable (nullOrNumeric d) := by
  unfold nullOrNumeric
  infer_instance

/-- The probes of `check_in` never fail on the null-or-numeric domain. -/
theorem probe_ok (ctx : EvalContext) (t : Datum) (vs : List Datum)
    (hdom : ∀ d ∈ vs, nullOrNumeric d) (ht : nullOrNumeric t) (i : Nat) :
    (vs.getD i .Null).cmp ctx t = .ok (cmpK (vs.getD i .Null) t) := by
  apply cmp_dom ctx _ ht
  by_cases h : i < vs.length
  · rw [List.getD_eq_getElem vs .Null h]
    exact hdom _ (List.getElem_mem h)
  · rw [List.getD_eq_default vs .Null (by omega)]
    exact Or.inl rfl

/-- A sorted list gives upward-monotone `gt` probes. -/
theorem probe_mono_gt (t : Datum) (vs : List Datum)
    (hsort : vs.Pairwise (fun a b => cmpK a b ≠ .gt)) :
    ∀ i j, i ≤ j → j < vs.length →
      cmpK (vs.getD i .Null) t = .gt → cmpK (vs.getD j .Null) t = .gt := by
  intro i j hij hj hgt
  rcases eq_or_lt_of_le hij with rfl | hlt
  · exact hgt
  · refine cmpK_mono_gt ?_ hgt
    rw [List.getD_eq_getElem vs .Null (lt_trans hlt hj),
        List.getD_eq_getElem vs .Null hj]
    have := List.pairwise_iff_get.mp hsort ⟨i, lt_trans hlt hj⟩ ⟨j, hj⟩ hlt
    simpa using this

/-- A sorted list gives downward-monotone `lt` probes. -/
theorem probe_mono_lt (t : Datum) (vs : List Datum)
    (hsort : vs.Pairwise (fun a b => cmpK a b ≠ .gt)) :
    ∀ i j, i ≤ j → j < vs.length →
      cmpK (vs.getD j .Null) t = .lt → cmpK (vs.getD i .Null) t = .lt := by
  intro i j hij hj hlt'
  rcases eq_or_lt_of_le hij with rfl | hlt
  · exact hlt'
  · refine cmpK_mono_lt ?_ hlt'
    rw [List.getD_eq_getElem vs .Null (lt_trans hlt hj),
        List.getD_eq_getElem vs .Null hj]
    have := List.pairwise_iff_get.mp hsort ⟨i, lt_trans hlt hj⟩ ⟨j, hj⟩ hlt
    simpa using this

/-- `check_in` finds a present target on a sorted null-or-numeric list. -/
theorem check_in_found (ctx : EvalContext) (t : Datum) (vs : List Datum)
    (hdom : ∀ d ∈ vs, nullOrNumeric d)
    (hsort : vs.Pairwise (fun a b => cmpK a b ≠ .gt))
    (ht : nullOrNumeric t)
    (hex : ∃ i, ∃ h : i < vs.length, cmpK vs[i] t = .eq) :
    check_in ctx t vs = .ok true := by
  obtain ⟨i0, hi0, heq0⟩ := hex
  have hn : vs.length ≠ 0 := by omega
  have hpb : cmpK (vs.getD (bsPure (fun i => cmpK (vs.getD i .Null) t)
      vs.length 0 vs.length) .Null) t = .eq := by
    apply bsPure_complete (fun i => cmpK (vs.getD i .Null) t) vs.length
      (probe_mono_gt t vs hsort) (probe_mono_lt t vs hsort)
      vs.length 0 vs.length (le_refl _) (by omega) (by omega)
    refine ⟨i0, Nat.zero_le i0, by omega, ?_⟩
    rw [List.getD_eq_getElem vs .Null hi0]
    exact heq0
  simp only [check_in, binary_search_by]
  rw [if_neg hn,
      bsGo_pure _ (fun i => cmpK (vs.getD i .Null) t)
        (probe_ok ctx t vs hdom ht) vs.length 0 vs.length Option.none]
  dsimp only
  rw [probe_ok ctx t vs hdom ht
      (bsPure (fun i => cmpK (vs.getD i .Null) t) vs.length 0 vs.length)]
  rw [hpb]

/-- `check_in` reports false when the target is absent from a sorted
null-or-numeric list. -/
theorem check_in_not_found (ctx : EvalContext) (t : Datum) (vs : List Datum)
    (hdom : ∀ d ∈ vs, nullOrNumeric d)
    (hsort : vs.Pairwise (fun a b => cmpK a b ≠ .gt))
    (ht : nullOrNumeric t)
    (hnone : ∀ i, ∀ _ : i < vs.length, cmpK vs[i] t ≠ .eq) :
    check_in ctx t vs = .ok false := by
  by_cases hn : vs.length = 0
  · simp only [check_in, binary_search_by]
    rw [if_pos hn]
  · have h0 : 0 < vs.length := Nat.pos_of_ne_zero hn
    have hbmem := bsPure_mem (fun i => cmpK (vs.getD i .Null) t)
      vs.length 0 vs.length h0
    simp only [check_in, binary_search_by]
    rw [if_neg hn,
        bsGo_pure _ (fun i => cmpK (vs.getD i .Null) t)
          (probe_ok ctx t vs hdom ht) vs.length 0 vs.length Option.none]
    dsimp only
    rw [probe_ok ctx t vs hdom ht
        (bsPure (fun i => cmpK (vs.getD i .Null) t) vs.length 0 vs.length)]
    have hblt : bsPure (fun i => cmpK (vs.getD i .Null) t)
        vs.length 0 vs.length < vs.length := by omega
    have hne : cmpK (vs.getD (bsPure (fun i => cmpK (vs.getD i .Null) t)
        vs.length 0 vs.length) .Null) t ≠ .eq := by
      rw [List.getD_eq_getElem vs .Null hblt]
      exact hnone _ hblt
    cases hpb : cmpK (vs.getD (bsPure (fun i => cmpK (vs.getD i .Null) t)
        vs.length 0 vs.length) .Null) t with
    | lt => rfl
    | eq => exact absurd hpb hne
    | gt => rfl

/-- In a sorted null-or-numeric list that contains Null, Null is the
head. -/
theorem sorted_null_head {vs : List Datum}
    (hdom : ∀ d ∈ vs, nullOrNumeric d)
    (hsort : vs.Pairwise (fun a b => cmpK a b ≠ .gt))
    (hmem : .Null ∈ vs) : ∃ rest, vs = .Null :: rest := by
  cases vs with
  | nil => cases hmem
  | cons d rest =>
    rcases List.mem_cons.mp hmem with h | h
    · exact ⟨rest, by rw [← h]⟩
    · rcases hdom d (List.mem_cons_self _ _) with hd | hd
      · exact ⟨rest, by rw [hd]⟩
      · exfalso
        apply (List.pairwise_cons.mp hsort).1 .Null h
        rcases hnv : Datum.numVal d with _ | x
        · rw [hnv] at hd
          simp at hd
        · unfold cmpK
          rw [hnv]
          rfl

/-- **C5.** `IN(target, value_list)` over a pre-sorted null-or-numeric
value-list literal: a Null target gives Null; a numeric target found by
the binary-search comparator gives I64 1; an absent target gives Null if
the list contains Null and I64 0 otherwise (in particular an empty list
gives I64 0). -/
theorem c5_in_binary_search (ctx : EvalContext) (row : List (Int × Datum))
    (v : Payload) (sg sg2 : ScalarFuncSig) (ft ft2 : Nat) (fd fd2 : Int)
    (cs : List Expr) (c0 : Expr) (vs : List Datum) (t : Datum)
    (hdom : ∀ d ∈ vs, nullOrNumeric d)
    (hsort : vs.Pairwise (fun a b => cmpK a b ≠ .gt)) :
    (eval ctx row c0 = .ok .Null →
      eval ctx row (.mk .In v
        [c0, .mk .ValueList (.datums vs) cs sg2 ft2 fd2] sg ft fd) =
        .ok .Null) ∧
    (eval ctx row c0 = .ok t → (Datum.numVal t).isSome →
      ((∃ i, ∃ h : i < vs.length, cmpK vs[i] t = .eq) →
        eval ctx row (.mk .In v
          [c0, .mk .ValueList (.datums vs) cs sg2 ft2 fd2] sg ft fd) =
          .ok (.I64 1)) ∧
      ((∀ i, ∀ _ : i < vs.length, cmpK vs[i] t ≠ .eq) → .Null ∈ vs →
        eval ctx row (.mk .In v
          [c0, .mk .ValueList (.datums vs) cs sg2 ft2 fd2] sg ft fd) =
          .ok .Null) ∧
      ((∀ i, ∀ _ : i < vs.length, cmpK vs[i] t ≠ .eq) → .Null ∉ vs →
        eval ctx row (.mk .In v
          [c0, .mk .ValueList (.datums vs) cs sg2 ft2 fd2] sg ft fd) =
          .ok (.I64 0))) := by
  constructor
  · intro h0
    rw [eval.eq_def]
    dsimp only
    rw [h0]
    dsimp only
    rw [if_pos rfl]
  · intro ht0 htn
    have htnn : t ≠ .Null := by
      intro e
      subst e
      simp [Datum.numVal] at htn
    have htd : nullOrNumeric t := Or.inr htn
    have hvl : ¬(Expr.get_tp (.mk .ValueList (.datums vs) cs sg2 ft2 fd2) ≠
        .ValueList) := fun hc => hc rfl
    refine ⟨?_, ?_, ?_⟩
    · intro hex
      rw [eval.eq_def]
      dsimp only
      rw [ht0]
      dsimp only
      rw [if_neg htnn, if_neg hvl]
      dsimp only [Expr.get_val, Payload.decode]
      rw [check_in_found ctx t vs hdom hsort htd hex]
      rfl
    · intro hnone hmem
      obtain ⟨rest, hrest⟩ := sorted_null_head hdom hsort hmem
      rw [eval.eq_def]
      dsimp only
      rw [ht0]
      dsimp only
      rw [if_neg htnn, if_neg hvl]
      dsimp only [Expr.get_val, Payload.decode]
      rw [check_in_not_found ctx t vs hdom hsort htd hnone]
      dsimp only
      rw [hrest]
    · intro hnone hnmem
      cases vs with
      | nil =>
        rw [eval.eq_def]
        dsimp only
        rw [ht0]
        dsimp only
        rw [if_neg htnn, if_neg hvl]
        dsimp only [Expr.get_val, Payload.decode]
        rw [check_in_not_found ctx t [] hdom hsort htd hnone]
        rfl
      | cons d rest =>
        have hd : d ≠ .Null := fun e => hnmem (e ▸ List.mem_cons_self _ _)
        rw [eval.eq_def]
        dsimp only
        rw [ht0]
        dsimp only
        rw [if_neg htnn, if_neg hvl]
        dsimp only [Expr.get_val, Payload.decode]
        rw [check_in_not_found ctx t (d :: rest) hdom hsort htd hnone]
        dsimp only
        cases d <;> first | exact absurd rfl hd | rfl

/-- Witness for C5: `1 IN (1, 2)` is I64 1, `3 IN (Null, 1)` is Null, and
`3 IN ()` is I64 0. -/
theorem c5_in_binary_search_witness :
    eval ⟨0, false, false⟩ [] (.mk .In .none
      [.mk .Int64 (.int 1) [] (.Other 0) 0 0,
       .mk .ValueList (.datums [.I64 1, .I64 2]) [] (.Other 0) 0 0]
      (.Other 0) 0 0) = .ok (.I64 1) ∧
    eval ⟨0, false, false⟩ [] (.mk .In .none
      [.mk .Int64 (.int 3) [] (.Other 0) 0 0,
       .mk .ValueList (.datums [.Null, .I64 1]) [] (.Other 0) 0 0]
      (.Other 0) 0 0) = .ok .Null ∧
    eval ⟨0, false, false⟩ [] (.mk .In .none
      [.mk .Int64 (.int 3) [] (.Other 0) 0 0,
       .mk .ValueList (.datums []) [] (.Other 0) 0 0]
      (.Other 0) 0 0) = .ok (.I64 0) := by
  have h1 : eval ⟨0, false, false⟩ []
      (.mk .Int64 (.int 1) [] (.Other 0) 0 0) = .ok (.I64 1) := by
    rw [eval.eq_def]
    rfl
  have h3 : eval ⟨0, false, false⟩ []
      (.mk .Int64 (.int 3) [] (.Other 0) 0 0) = .ok (.I64 3) := by
    rw [eval.eq_def]
    rfl
  refine ⟨?_, ?_, ?_⟩
  · exact ((c5_in_binary_search ⟨0, false, false⟩ [] .none (.Other 0)
      (.Other 0) 0 0 0 0 [] (.mk .Int64 (.int 1) [] (.Other 0) 0 0)
      [.I64 1, .I64 2] (.I64 1) (by decide) (by decide)).2 h1
      (by decide)).1 ⟨0, by decide, by decide⟩
  · exact ((c5_in_binary_search ⟨0, false, false⟩ [] .none (.Other 0)
      (.Other 0) 0 0 0 0 [] (.mk .Int64 (.int 3) [] (.Other 0) 0 0)
      [.Null, .I64 1] (.I64 3) (by decide) (by decide)).2 h3
      (by decide)).2.1 (by decide) (by decide)
  · exact ((c5_in_binary_search ⟨0, false, false⟩ [] .none (.Other 0)
      (.Other 0) 0 0 0 0 [] (.mk .Int64 (.int 3) [] (.Other 0) 0 0)
      [] (.I64 3) (by decide) (by decide)).2 h3
      (by decide)).2.2 (by decide) (by decide)

/-- Witness for C10: a ValueList node evaluates to Null and a ScalarFunc
node with an unknown signature errors. -/
theorem c10_default_null_witness :
    eval ⟨0, false, false⟩ [] (.mk .ValueList .none [] (.Other 0) 0 0) =
      .ok .Null ∧
    eval ⟨0, false, false⟩ [] (.mk .ScalarFunc .none [] (.Other 5) 0 0) =
      .error (.expr "unsupported scalar function") :=
  ⟨(c10_default_null ⟨0, false, false⟩ []
      (.mk .ValueList .none [] (.Other 0) 0 0)
      (Or.inr (Or.inr (Or.inr (Or.inr (Or.inr (Or.inr (Or.inl rfl)))))))).1,
   (c10_default_null ⟨0, false, false⟩ []
      (.mk .ValueList .none [] (.Other 0) 0 0)
      (Or.inr (Or.inr (Or.inr (Or.inr (Or.inr (Or.inr (Or.inl rfl)))))))).2
     .none [] 5 0 0⟩

end Tikv
